import Mathlib

/-!
Verification of the VFIO-PCI interrupt-virtualization core (`vfio/pci.c`) and
the AArch64 vCPU reset protocol (`arm/aarch64/kvm-cpu.c`) of the kvmtool-style
hypervisor, against its natural-language specification.

The development shallowly embeds the C code: machine integers become `Nat`
(with explicit 16-bit wraparound where the C code subtracts `u16` offsets and
explicit 32-bit masks where the C code complements `u32` values), the guest
visible configuration space and MSI-X table entries become byte lists, and
every interaction with the host kernel (eventfd creation, KVM routing, VFIO
`SET_IRQS` ioctls) is recorded in an explicit trace inside a `Host` state that
also carries failure oracles for the fallible calls.
-/

namespace VfioPci

/-! ## Byte-level helpers for configuration space and MSI-X table entries -/

/-- Read one byte of a byte list (out-of-range reads give 0, as the C code
never reads out of its fixed 256-byte buffers on the paths we model). -/
def rdByte (bs : List Nat) (i : Nat) : Nat := bs.getD i 0

/-- Write one byte of a byte list (out-of-range writes are dropped). -/
def wrByte (bs : List Nat) (i v : Nat) : List Nat := bs.set i v

/-- Little-endian 16-bit read. -/
def rdWord16 (bs : List Nat) (i : Nat) : Nat := rdByte bs i + 256 * rdByte bs (i+1)

/-- Little-endian 32-bit read. -/
def rdWord32 (bs : List Nat) (i : Nat) : Nat :=
  rdByte bs i + 256 * rdByte bs (i+1) + 65536 * rdByte bs (i+2) + 16777216 * rdByte bs (i+3)

/-- Little-endian byte decomposition of a 32-bit value. -/
def toBytes4 (x : Nat) : List Nat := [x % 256, x / 256 % 256, x / 65536 % 256, x / 16777216 % 256]

/-- `memcpy(dst + pos, src, src.length)` on byte lists. -/
def spliceBytes (dst : List Nat) (pos : Nat) (src : List Nat) : List Nat :=
  dst.take pos ++ src ++ dst.drop (pos + src.length)

/-- Little-endian 32-bit write. -/
def wrWord32 (bs : List Nat) (i x : Nat) : List Nat := spliceBytes bs i (toBytes4 x)

/-! ## PCI register constants (values from `linux/pci_regs.h`) -/

def PCI_CAP_ID_MSI : Nat := 0x05
def PCI_CAP_ID_MSIX : Nat := 0x11
def PCI_CAP_ID_EXP : Nat := 0x10
def PCI_STATUS_CAP_LIST : Nat := 0x10
def PCI_STD_HEADER_SIZEOF : Nat := 0x40
def PCI_DEV_CFG_SIZE_LEGACY : Nat := 0x100
def PCI_CAP_MSIX_SIZEOF : Nat := 12
def PCI_CAP_EXP_RC_ENDPOINT_SIZEOF_V1 : Nat := 12
def PCI_MSI_FLAGS_ENABLE : Nat := 0x01
def PCI_MSI_FLAGS_QMASK : Nat := 0x0e
def PCI_MSI_FLAGS_QSIZE : Nat := 0x70
def PCI_MSI_FLAGS_64BIT : Nat := 0x80
def PCI_MSI_FLAGS_MASKBIT : Nat := 0x100
def PCI_MSI_MASK_32 : Nat := 12
def PCI_MSI_MASK_64 : Nat := 16
def PCI_MSIX_FLAGS_QSIZE : Nat := 0x7FF
def PCI_MSIX_FLAGS_MASKALL : Nat := 0x4000
def PCI_MSIX_FLAGS_ENABLE : Nat := 0x8000
def PCI_MSIX_ENTRY_SIZE : Nat := 16
def PCI_MSIX_ENTRY_VECTOR_CTRL : Nat := 12
def PCI_MSIX_ENTRY_CTRL_MASKBIT : Nat := 1

/-- The `ALIGN(x, 8)` macro of the C code, on naturals. -/
def ALIGN8 (x : Nat) : Nat := (x + 7) / 8 * 8

/-! ## MSI-X table geometry (`vfio_pci_create_msix_table`) -/

/-- `nr_entries = (msix->ctrl & PCI_MSIX_FLAGS_QSIZE) + 1`. -/
def msixNrEntries (msix_ctrl : Nat) : Nat := (msix_ctrl &&& PCI_MSIX_FLAGS_QSIZE) + 1

/-- `table->size = ALIGN(nr_entries * PCI_MSIX_ENTRY_SIZE, 8)`. -/
def msixTableSize (msix_ctrl : Nat) : Nat :=
  ALIGN8 (msixNrEntries msix_ctrl * PCI_MSIX_ENTRY_SIZE)

/-! ## AArch64 vCPU reset (`reset_vcpu_aarch64`)

The reset routine is a straight-line sequence of `KVM_SET_ONE_REG` ioctls; we
embed it as the list of (register, value) writes it issues, in order. -/

def PSR_MODE_EL1h : Nat := 0x5
def PSR_F_BIT : Nat := 0x40
def PSR_I_BIT : Nat := 0x80
def PSR_A_BIT : Nat := 0x100
def PSR_D_BIT : Nat := 0x200

/-- Symbolic names for the AArch64 core registers touched by the reset path. -/
inductive ArmReg where
  | pstate : ArmReg
  | x : Nat → ArmReg
  | pc : ArmReg
deriving Repr, DecidableEq

/-- The sequence of one-register writes issued by `reset_vcpu_aarch64` for a
vCPU with the given id; `dtb` is `kvm->arch.dtb_guest_start` and `kern` is
`kvm->arch.kern_guest_start`. -/
def reset_vcpu_aarch64 (cpu_id dtb kern : Nat) : List (ArmReg × Nat) :=
  [(ArmReg.pstate, PSR_D_BIT ||| PSR_A_BIT ||| PSR_I_BIT ||| PSR_F_BIT ||| PSR_MODE_EL1h),
   (ArmReg.x 1, 0), (ArmReg.x 2, 0), (ArmReg.x 3, 0)] ++
  (if cpu_id = 0 then [(ArmReg.x 0, dtb), (ArmReg.pc, kern)] else [])

/-! ## The host side: KVM routing, eventfds and VFIO ioctls

Every interaction of `vfio/pci.c` with the host kernel is modelled as an
operation on a `Host` state which records the call in a trace.  eventfd and
GSI numbers are handed out by monotone counters; installed irqfd routes are
the list of (gsi, eventfd) pairs.  Fallible calls consult failure oracles:
`failSetIrqs` is a queue consumed by successive `VFIO_DEVICE_SET_IRQS` ioctls
(head `true` = that ioctl fails), the other three are sticky flags. -/

/-- One call into the host kernel, as issued by the C code. -/
inductive HostCall where
  /-- `VFIO_DEVICE_SET_IRQS` with `DATA_EVENTFD | ACTION_TRIGGER`:
  `start` and the trailing fd array. -/
  | setIrqsFds (index start : Nat) (fds : List Int)
  /-- `VFIO_DEVICE_SET_IRQS` with `DATA_NONE | ACTION_TRIGGER` (disarm). -/
  | setIrqsNone (index count : Nat)
  /-- `VFIO_DEVICE_SET_IRQS` with `DATA_EVENTFD | ACTION_UNMASK`. -/
  | setIrqsUnmask (index : Nat) (fd : Int)
  /-- `irq__add_msix_route`. -/
  | addMsixRoute (address_lo address_hi data : Nat)
  /-- `irq__update_msix_route`. -/
  | updMsixRoute (gsi : Int) (address_lo address_hi data : Nat)
  /-- `irq__add_irqfd`. -/
  | addIrqfd (gsi trigger resample : Int)
  /-- `irq__del_irqfd`. -/
  | delIrqfd (gsi trigger : Int)
  /-- `eventfd(0, 0)`. -/
  | newEventfd (fd : Int)
  /-- `close(fd)`. -/
  | closeFd (fd : Int)
deriving Repr, DecidableEq

/-- Whether a host call is a `VFIO_DEVICE_SET_IRQS` ioctl. -/
def HostCall.isSetIrqs : HostCall → Bool
  | .setIrqsFds _ _ _ => true
  | .setIrqsNone _ _ => true
  | .setIrqsUnmask _ _ => true
  | _ => false

/-- Number of `SET_IRQS` ioctls in a trace. -/
def countSetIrqs (tr : List HostCall) : Nat := (tr.filter HostCall.isSetIrqs).length

/-- Host kernel state: allocation counters, installed irqfd routes, failure
oracles, the call trace, and a flag recording that the device model performed
an out-of-bounds access into its own vector array (undefined behaviour in C). -/
structure Host where
  nextFd : Nat
  nextGsi : Nat
  irqfds : List (Int × Int)
  failSetIrqs : List Bool
  failEventfd : Bool
  failRoute : Bool
  failIrqfd : Bool
  oob : Bool
  trace : List HostCall
deriving Repr, DecidableEq

/-- Append a call to the trace. -/
def Host.record (h : Host) (c : HostCall) : Host := {h with trace := h.trace ++ [c]}

/-- `eventfd(0, 0)`: returns a fresh fd, or -1 on failure. -/
def host_eventfd (h : Host) : Int × Host :=
  if h.failEventfd then (-1, h.record (.newEventfd (-1)))
  else ((h.nextFd : Int), {h.record (.newEventfd (h.nextFd : Int)) with nextFd := h.nextFd + 1})

/-- Issue a `VFIO_DEVICE_SET_IRQS` ioctl; consumes one oracle entry. -/
def host_set_irqs (h : Host) (c : HostCall) : Bool × Host :=
  (!h.failSetIrqs.headD false,
   {h.record c with failSetIrqs := h.failSetIrqs.tail})

/-- `irq__add_msix_route`: returns a fresh GSI, or -1 on failure. -/
def host_add_msix_route (h : Host) (lo hi da : Nat) : Int × Host :=
  if h.failRoute then (-1, h.record (.addMsixRoute lo hi da))
  else ((h.nextGsi : Int), {h.record (.addMsixRoute lo hi da) with nextGsi := h.nextGsi + 1})

/-- `irq__update_msix_route`: updates the message of an existing route. -/
def host_upd_msix_route (h : Host) (gsi : Int) (lo hi da : Nat) : Host :=
  h.record (.updMsixRoute gsi lo hi da)

/-- `irq__add_irqfd`: installs the (gsi, trigger) route; 0 on success. -/
def host_add_irqfd (h : Host) (gsi fd resample : Int) : Int × Host :=
  if h.failIrqfd then (-1, h.record (.addIrqfd gsi fd resample))
  else (0, {h.record (.addIrqfd gsi fd resample) with irqfds := (gsi, fd) :: h.irqfds})

/-- `irq__del_irqfd`: removes the (gsi, trigger) route. -/
def host_del_irqfd (h : Host) (gsi fd : Int) : Host :=
  {h.record (.delIrqfd gsi fd) with
    irqfds := h.irqfds.filter (fun p => decide (p ≠ (gsi, fd)))}

/-- `close(fd)`. -/
def host_close (h : Host) (fd : Int) : Host := h.record (.closeFd fd)

/-! ## Device state (`struct vfio_pci_device` and friends, `kvm/vfio.h`) -/

def VFIO_PCI_MSI_STATE_ENABLED : Nat := 1
def VFIO_PCI_MSI_STATE_MASKED : Nat := 2
def VFIO_PCI_MSI_STATE_EMPTY : Nat := 4

/-- `msi_is_enabled(state)`. -/
def msi_is_enabled (s : Nat) : Bool := s &&& VFIO_PCI_MSI_STATE_ENABLED != 0

/-- `msi_is_masked(state)`. -/
def msi_is_masked (s : Nat) : Bool := s &&& VFIO_PCI_MSI_STATE_MASKED != 0

/-- `msi_is_empty(state)`. -/
def msi_is_empty (s : Nat) : Bool := s &&& VFIO_PCI_MSI_STATE_EMPTY != 0

/-- `msi_update_state`: set or clear one flag bit (states are `u8`/`u32`;
clearing uses the 32-bit complement of the bit, which coincides with the C
result for all state values that ever occur). -/
def msi_update_state (s : Nat) (v : Bool) (bit : Nat) : Nat :=
  if v then s ||| bit else s &&& (4294967295 ^^^ bit)

/-- `msi_set_enabled`. -/
def msi_set_enabled (s : Nat) (v : Bool) : Nat := msi_update_state s v VFIO_PCI_MSI_STATE_ENABLED

/-- `msi_set_masked`. -/
def msi_set_masked (s : Nat) (v : Bool) : Nat := msi_update_state s v VFIO_PCI_MSI_STATE_MASKED

/-- `msi_set_empty`. -/
def msi_set_empty (s : Nat) (v : Bool) : Nat := msi_update_state s v VFIO_PCI_MSI_STATE_EMPTY

/-- `struct vfio_pci_msi_entry`: the 16-byte MSI-X table entry image, host
route id, eventfd, and the two per-vector state words. -/
structure MsiEntry where
  config : List Nat
  gsi : Int
  eventfd : Int
  guest_state : Nat
  host_state : Nat
deriving Repr, DecidableEq

instance : Inhabited MsiEntry := ⟨⟨List.replicate 16 0, -1, -1, 0, 0⟩⟩

/-- `struct vfio_pci_msi_common`: capability position, irq index used in
`SET_IRQS` payloads, capability-level state words, vectors, and the trailing
eventfd array of the pre-allocated `irq_set` buffer. -/
structure MsiCommon where
  pos : Nat
  index : Nat
  guest_state : Nat
  host_state : Nat
  nr_entries : Nat
  entries : List MsiEntry
  eventfds : List Int
deriving Repr, DecidableEq

def VFIO_PCI_IRQ_MODE_INTX : Nat := 1
def VFIO_PCI_IRQ_MODE_MSI : Nat := 2
def VFIO_PCI_IRQ_MODE_MSIX : Nat := 4

/-- `VFIO_PCI_INTX_IRQ_INDEX`. -/
def vfio_intx_index : Nat := 0

/-- `struct vfio_pci_device`: the virtual configuration header (256 bytes),
supported irq modes, INTx file descriptors and GSI, the two capability
states, and the MSI-X table window geometry. -/
structure VfioPciDevice where
  hdr : List Nat
  irq_modes : Nat
  intx_fd : Int
  unmask_fd : Int
  intx_gsi : Int
  msi : MsiCommon
  msix : MsiCommon
  msix_table_base : Nat
  msix_table_size : Nat
deriving Repr, DecidableEq

/-- `msix ? &pdev->msix : &pdev->msi`. -/
def getCap (d : VfioPciDevice) (msix : Bool) : MsiCommon := if msix then d.msix else d.msi

/-- Write back the selected capability. -/
def setCap (d : VfioPciDevice) (msix : Bool) (m : MsiCommon) : VfioPciDevice :=
  if msix then {d with msix := m} else {d with msi := m}

/-! ## The MSI/MSI-X state machine (`vfio/pci.c`) -/

/-- `vfio_pci_update_msi_entry`: lazily allocate the eventfd, allocate or
refresh the MSI-X route, and reconcile the per-vector host MASKED bit with
the guest view by installing or removing the irqfd route.  Returns the C
return value together with the updated entry and host. -/
def vfio_pci_update_msi_entry (h : Host) (e : MsiEntry) : Int × MsiEntry × Host :=
  let step1 : MsiEntry × Host × Bool :=
    if e.eventfd < 0 then
      let p := host_eventfd h
      ({e with eventfd := p.1}, p.2, decide (p.1 < 0))
    else (e, h, false)
  let e := step1.1
  let h := step1.2.1
  if step1.2.2 then (-1, e, h) else
  let step2 : MsiEntry × Host × Bool :=
    if e.gsi < 0 then
      let p := host_add_msix_route h (rdWord32 e.config 0) (rdWord32 e.config 4)
                 (rdWord32 e.config 8)
      if p.1 < 0 then (e, p.2, true) else ({e with gsi := p.1}, p.2, false)
    else
      (e, host_upd_msix_route h e.gsi (rdWord32 e.config 0) (rdWord32 e.config 4)
            (rdWord32 e.config 8), false)
  let e := step2.1
  let h := step2.2.1
  if step2.2.2 then (-1, e, h) else
  if msi_is_masked e.guest_state = msi_is_masked e.host_state then (0, e, h) else
  if msi_is_masked e.host_state then
    let p := host_add_irqfd h e.gsi e.eventfd (-1)
    if p.1 < 0 then (-1, e, p.2)
    else (0, {e with host_state := msi_set_masked e.host_state (msi_is_masked e.guest_state)},
          p.2)
  else
    let h := host_del_irqfd h e.gsi e.eventfd
    (0, {e with host_state := msi_set_masked e.host_state (msi_is_masked e.guest_state)}, h)

/-- `vfio_pci_disable_intx`: if INTx is armed, disarm it on the host, remove
its irqfd route and close both eventfds. -/
def vfio_pci_disable_intx (d : VfioPciDevice) (h : Host) : VfioPciDevice × Host :=
  if d.intx_fd = -1 then (d, h)
  else
    let p := host_set_irqs h (.setIrqsNone vfio_intx_index 0)
    let h := host_del_irqfd p.2 d.intx_gsi d.intx_fd
    let h := host_close h d.intx_fd
    let h := host_close h d.unmask_fd
    ({d with intx_fd := -1}, h)

/-- `vfio_pci_enable_intx`: allocate the trigger/unmask eventfd pair, install
the resampling irqfd route and issue the TRIGGER and UNMASK `SET_IRQS`
ioctls, unwinding on every failure exactly as the C error labels do. -/
def vfio_pci_enable_intx (d : VfioPciDevice) (h : Host) : Int × VfioPciDevice × Host :=
  if d.intx_fd ≠ -1 then (0, d, h) else
  let pt := host_eventfd h
  let tfd := pt.1
  let h := pt.2
  if tfd < 0 then (tfd, d, h) else
  let pu := host_eventfd h
  let ufd := pu.1
  let h := pu.2
  if ufd < 0 then (ufd, d, host_close h tfd) else
  let pr := host_add_irqfd h d.intx_gsi tfd ufd
  let h := pr.2
  if pr.1 ≠ 0 then (pr.1, d, host_close (host_close h tfd) ufd) else
  let p1 := host_set_irqs h (.setIrqsFds vfio_intx_index 0 [tfd])
  let h := p1.2
  if ¬ p1.1 then
    let h := host_del_irqfd h d.intx_gsi tfd
    (-1, d, host_close (host_close h tfd) ufd)
  else
  let p2 := host_set_irqs h (.setIrqsUnmask vfio_intx_index ufd)
  let h := p2.2
  if ¬ p2.1 then
    let p3 := host_set_irqs h (.setIrqsNone vfio_intx_index 0)
    let h := host_del_irqfd p3.2 d.intx_gsi tfd
    (-1, d, host_close (host_close h tfd) ufd)
  else
    (0, {d with intx_fd := tfd, unmask_fd := ufd}, h)

/-- The per-vector update loop of `vfio_pci_enable_msis` (the branch that
reprograms individual slots with count=1 `SET_IRQS` to avoid disturbing
vectors in use).  Iterates over the given index list, threading the `irq_set`
eventfd buffer and the capability `host_state`; breaks out with -1 on the
first ioctl failure. -/
def enableMsisSingleLoop (idx : Nat) (entries : List MsiEntry) :
    List Nat → List Int → Nat → Host → Int × List Int × Nat × Host
  | [], efds, hs, h => (0, efds, hs, h)
  | i :: rest, efds, hs, h =>
    let e := entries.getD i default
    let fd : Int := if 0 ≤ e.gsi then e.eventfd else -1
    if fd = efds.getD i (-1) then enableMsisSingleLoop idx entries rest efds hs h
    else
      let p := host_set_irqs h (.setIrqsFds idx i [fd])
      if ¬ p.1 then (-1, efds, hs, p.2)
      else
        let efds := efds.set i fd
        let hs := if msi_is_empty hs ∧ 0 ≤ fd then msi_set_empty hs false else hs
        enableMsisSingleLoop idx entries rest efds hs p.2

/-- `vfio_pci_enable_msis`: reconcile the host state of the MSI or MSI-X
capability with the guest state.  Tears down INTx first, performs the bulk
registration on first enable or on unmask-while-EMPTY, and otherwise updates
individual vectors. -/
def vfio_pci_enable_msis (d0 : VfioPciDevice) (h : Host) (msix : Bool) :
    Int × VfioPciDevice × Host :=
  let msis := getCap d0 msix
  if ¬ msi_is_enabled msis.guest_state then (0, d0, h) else
  let pIntx :=
    if d0.irq_modes &&& VFIO_PCI_IRQ_MODE_INTX ≠ 0 then vfio_pci_disable_intx d0 h
    else (d0, h)
  let d := pIntx.1
  let h := pIntx.2
  if ¬ msi_is_enabled msis.host_state
      ∨ (¬ msi_is_masked msis.guest_state ∧ msi_is_empty msis.host_state) then
    let fds := msis.entries.map (fun e => if 0 ≤ e.gsi then e.eventfd else (-1 : Int))
    let empty := fds.all (fun fd => decide (fd < 0))
    let p := host_set_irqs h (.setIrqsFds msis.index 0 fds)
    if ¬ p.1 then (-1, setCap d msix {msis with eventfds := fds}, p.2)
    else
      let hs := msi_set_empty (msi_set_enabled msis.host_state true) empty
      (0, setCap d msix {msis with eventfds := fds, host_state := hs}, p.2)
  else if msi_is_masked msis.guest_state then (0, d, h)
  else
    let p := enableMsisSingleLoop msis.index msis.entries (List.range msis.nr_entries)
               msis.eventfds msis.host_state h
    (p.1, setCap d msix {msis with eventfds := p.2.1, host_state := p.2.2.1}, p.2.2.2)

/-- `vfio_pci_disable_msis`: disarm the capability on the host (count=0
`SET_IRQS`), clear ENABLED / set EMPTY, and re-arm INTx when supported. -/
def vfio_pci_disable_msis (d : VfioPciDevice) (h : Host) (msix : Bool) :
    Int × VfioPciDevice × Host :=
  let msis := getCap d msix
  if ¬ msi_is_enabled msis.host_state then (0, d, h) else
  let p := host_set_irqs h (.setIrqsNone msis.index 0)
  let h := p.2
  if ¬ p.1 then (-1, d, h) else
  let d := setCap d msix
    {msis with host_state := msi_set_empty (msi_set_enabled msis.host_state false) true}
  if d.irq_modes &&& VFIO_PCI_IRQ_MODE_INTX ≠ 0 then
    let q := vfio_pci_enable_intx d h
    (if 0 ≤ q.1 then 0 else q.1, q.2.1, q.2.2)
  else (0, d, h)

/-- Replace vector `i` of the MSI-X capability. -/
def updMsixEntry (d : VfioPciDevice) (i : Nat) (e : MsiEntry) : VfioPciDevice :=
  {d with msix := {d.msix with entries := d.msix.entries.set i e}}

/-- `vfio_pci_msix_table_access`: the trap-and-emulate MMIO handler for the
MSI-X table window.  Returns the updated device and host, and for reads the
bytes returned to the guest (`none` for writes and for rejected accesses). -/
def vfio_pci_msix_table_access (d : VfioPciDevice) (h : Host) (addr : Nat)
    (data : List Nat) (len : Nat) (is_write : Bool) :
    VfioPciDevice × Host × Option (List Nat) :=
  let offset := addr - d.msix_table_base
  if offset ≥ d.msix_table_size then (d, h, none) else
  let vector := offset / PCI_MSIX_ENTRY_SIZE
  let field := offset % PCI_MSIX_ENTRY_SIZE
  if (len ≠ 4 ∧ len ≠ 8) ∨ addr &&& (len - 1) ≠ 0 then (d, h, none) else
  let e := d.msix.entries.getD vector default
  if ¬ is_write then (d, h, some ((e.config.drop field).take len)) else
  let e := {e with config := spliceBytes e.config field (data.take len)}
  if field + len ≤ PCI_MSIX_ENTRY_VECTOR_CTRL then (updMsixEntry d vector e, h, none) else
  let gm := rdWord32 e.config 12 &&& PCI_MSIX_ENTRY_CTRL_MASKBIT != 0
  let e := {e with guest_state := msi_set_masked e.guest_state gm}
  let p := vfio_pci_update_msi_entry h e
  let d := updMsixEntry d vector p.2.1
  let q := vfio_pci_enable_msis d p.2.2 true
  (q.2.1, q.2.2, none)

/-- `vfio_pci_msix_cap_write`: config-space write handler for the MSI-X
capability.  `off` is the raw config offset; the `u16` subtraction of the
capability position is modelled with explicit wraparound. -/
def vfio_pci_msix_cap_write (d : VfioPciDevice) (h : Host) (off : Nat)
    (data : List Nat) (sz : Nat) : VfioPciDevice × Host :=
  let enable_pos : Nat := 3
  let o := ((off % 65536) + 65536 - (d.msix.pos % 65536)) % 65536
  if o > enable_pos ∨ o + sz ≤ enable_pos then (d, h) else
  let flags := (data.getD (enable_pos - o) 0) <<< 8
  let gs := msi_set_masked d.msix.guest_state (flags &&& PCI_MSIX_FLAGS_MASKALL != 0)
  let enable := flags &&& PCI_MSIX_FLAGS_ENABLE != 0
  let gs := msi_set_enabled gs enable
  let d := {d with msix := {d.msix with guest_state := gs}}
  if enable then
    let p := vfio_pci_enable_msis d h true
    (p.2.1, p.2.2)
  else
    let p := vfio_pci_disable_msis d h true
    (p.2.1, p.2.2)

/-- The per-vector guest-mask bitmap built by `vfio_pci_msi_vector_write`
from current entry states (`mask |= !!msi_is_masked(...) << i`). -/
def maskFromEntries (n : Nat) (entries : List MsiEntry) : Nat :=
  (List.range n).foldl
    (fun m i =>
      if msi_is_masked (entries.getD i default).guest_state then m ||| (1 <<< i) else m) 0

/-- The per-vector loop at the end of `vfio_pci_msi_vector_write`: flip the
guest MASKED bit of every vector whose bit changed and reconcile it. -/
def msiVectorUpdateLoop (mask : Nat) :
    List Nat → VfioPciDevice → Host → VfioPciDevice × Host
  | [], d, h => (d, h)
  | i :: rest, d, h =>
    let masked := mask &&& (1 <<< i) != 0
    let e := d.msi.entries.getD i default
    if masked ≠ msi_is_masked e.guest_state then
      let e := {e with guest_state := msi_set_masked e.guest_state masked}
      let p := vfio_pci_update_msi_entry h e
      let d := {d with msi := {d.msi with entries := d.msi.entries.set i p.2.1}}
      msiVectorUpdateLoop mask rest d p.2.2
    else msiVectorUpdateLoop mask rest d h

/-- `vfio_pci_msi_vector_write`: handle guest writes that touch the MSI
per-vector Mask Bits register.  `off` is already rebased to the capability.
Returns whether the access was handled. -/
def vfio_pci_msi_vector_write (d : VfioPciDevice) (h : Host) (off : Nat)
    (data : List Nat) (sz : Nat) : Bool × VfioPciDevice × Host :=
  let ctrl := rdWord16 d.hdr (d.msi.pos + 2)
  if ctrl &&& PCI_MSI_FLAGS_MASKBIT = 0 then (false, d, h) else
  let mask_pos := if ctrl &&& PCI_MSI_FLAGS_64BIT ≠ 0 then PCI_MSI_MASK_64 else PCI_MSI_MASK_32
  if off ≥ mask_pos + 4 ∨ off + sz ≤ mask_pos then (false, d, h) else
  let mask0 := maskFromEntries d.msi.nr_entries d.msi.entries
  let start := max off mask_pos
  let limit := min (off + sz) (mask_pos + 4)
  let mask := rdWord32 (spliceBytes (toBytes4 mask0) (start - mask_pos)
                ((data.drop (start - off)).take (limit - start))) 0
  let p := msiVectorUpdateLoop mask (List.range d.msi.nr_entries) d h
  (true, p.1, p.2)

/-- The vector-programming loop of `vfio_pci_msi_cap_write`.  The C loop
accesses `pdev->msi.entries[i]` for every `i < nr_vectors` even when
`nr_vectors` exceeds the allocation; in the model such an access is skipped
and flagged in `Host.oob` (it is undefined behaviour in C). -/
def msiCapUpdateLoop (nr_vectors msg_lo msg_hi : Nat) :
    List Nat → Nat → VfioPciDevice → Host → VfioPciDevice × Host
  | [], _, d, h => (d, h)
  | i :: rest, msg_data, d, h =>
    let msg_data := (msg_data &&& (4294967295 ^^^ (nr_vectors - 1))) ||| i
    if i < d.msi.entries.length then
      let e := d.msi.entries.getD i default
      let cfg := wrWord32 (wrWord32 (wrWord32 e.config 0 msg_lo) 4 msg_hi) 8 msg_data
      let e := {e with config := cfg}
      let p := vfio_pci_update_msi_entry h e
      let d := {d with msi := {d.msi with entries := d.msi.entries.set i p.2.1}}
      msiCapUpdateLoop nr_vectors msg_lo msg_hi rest msg_data d p.2.2
    else
      msiCapUpdateLoop nr_vectors msg_lo msg_hi rest msg_data d {h with oob := true}

/-- `vfio_pci_msi_cap_write`: config-space write handler for the MSI
capability: route mask-register writes to `vfio_pci_msi_vector_write`, and on
writes touching the control register update the enable state and program
`1 << ((ctrl & PCI_MSI_FLAGS_QSIZE) >> 4)` vectors from the message address
and data found in the virtual header. -/
def vfio_pci_msi_cap_write (d : VfioPciDevice) (h : Host) (off : Nat)
    (data : List Nat) (sz : Nat) : VfioPciDevice × Host :=
  let o := ((off % 65536) + 65536 - (d.msi.pos % 65536)) % 65536
  let pv := vfio_pci_msi_vector_write d h o data sz
  let d := pv.2.1
  let h := pv.2.2
  if pv.1 then (d, h) else
  if o > 2 ∨ o + sz ≤ 2 then (d, h) else
  let ctrl := data.getD (2 - o) 0
  let d := {d with msi := {d.msi with
    guest_state := msi_set_enabled d.msi.guest_state (ctrl &&& PCI_MSI_FLAGS_ENABLE != 0)}}
  if ¬ msi_is_enabled d.msi.guest_state then
    let p := vfio_pci_disable_msis d h false
    (p.2.1, p.2.2)
  else
  let nr_vectors := 1 <<< ((ctrl &&& PCI_MSI_FLAGS_QSIZE) >>> 4)
  let cap_ctrl := rdWord16 d.hdr (d.msi.pos + 2)
  let msg_lo := rdWord32 d.hdr (d.msi.pos + 4)
  let msg_hi := if cap_ctrl &&& PCI_MSI_FLAGS_64BIT ≠ 0 then rdWord32 d.hdr (d.msi.pos + 8) else 0
  let msg_data := if cap_ctrl &&& PCI_MSI_FLAGS_64BIT ≠ 0 then rdWord16 d.hdr (d.msi.pos + 12)
    else rdWord16 d.hdr (d.msi.pos + 8)
  let p := msiCapUpdateLoop nr_vectors msg_lo msg_hi (List.range nr_vectors) msg_data d h
  let q := vfio_pci_enable_msis p.1 p.2 false
  (q.2.1, q.2.2)

/-- `pdev->msi.nr_entries = 1 << ((cap->ctrl & PCI_MSI_FLAGS_QMASK) >> 1)`
(`vfio_pci_create_msi_cap`). -/
def msiNrEntries (msi_ctrl : Nat) : Nat := 1 <<< ((msi_ctrl &&& PCI_MSI_FLAGS_QMASK) >>> 1)

/-- The `nr_vectors` computed by `vfio_pci_msi_cap_write` from the guest
written control byte. -/
def msiNrVectors (guest_ctrl : Nat) : Nat := 1 <<< ((guest_ctrl &&& PCI_MSI_FLAGS_QSIZE) >>> 4)

/-- The initial MSI-X table entry image built by `vfio_pci_create_msix_table`
(calloc zeroes everything, then `config.ctrl = PCI_MSIX_ENTRY_CTRL_MASKBIT`). -/
def msixInitConfig : List Nat := List.replicate 12 0 ++ [1, 0, 0, 0]

/-- The per-entry and buffer initialization loop of `vfio_pci_init_msis`:
`gsi = -1`, `eventfd = -1`, guest unmasked, host masked, buffer slots -1. -/
def initMsiEntry (e : MsiEntry) : MsiEntry :=
  let gs := msi_set_masked e.guest_state false
  let hs := msi_set_masked e.host_state true
  {e with gsi := -1, eventfd := -1, guest_state := gs, host_state := hs}

/-- `vfio_pci_init_msis` applied to a capability (the ioctl preamble checks
succeed; the entry and buffer initialization loop). -/
def vfio_pci_init_msis (m : MsiCommon) : MsiCommon :=
  {m with entries := m.entries.map initMsiEntry,
          eventfds := List.replicate m.nr_entries (-1)}

end VfioPci

namespace VfioPci

/-! ## Claim C10: table size bounds the vector index -/

/-- Claim C10 — for every MSI-X table MMIO offset below `table->size`, the
vector index `offset / PCI_MSIX_ENTRY_SIZE` computed by
`vfio_pci_msix_table_access` is strictly below `nr_entries`, because
`table->size = ALIGN(nr_entries * 16, 8)` equals exactly `16 * nr_entries`. -/
theorem msix_offset_in_bounds (msix_ctrl offset : Nat)
    (h : offset < msixTableSize msix_ctrl) :
    offset / PCI_MSIX_ENTRY_SIZE < msixNrEntries msix_ctrl := by
  have hsz : msixTableSize msix_ctrl = 16 * msixNrEntries msix_ctrl := by
    unfold msixTableSize ALIGN8 PCI_MSIX_ENTRY_SIZE
    omega
  rw [hsz] at h
  unfold PCI_MSIX_ENTRY_SIZE
  omega

/-- Witness for C10 at a concrete control word: one entry, offset 8. -/
theorem msix_offset_in_bounds_witness :
    8 < msixTableSize 0 ∧ 8 / PCI_MSIX_ENTRY_SIZE < msixNrEntries 0 :=
  ⟨by decide, msix_offset_in_bounds 0 8 (by decide)⟩

/-! ## Claim C9: AArch64 reset protocol -/

/-- Claim C9 — the AArch64 reset writes PSTATE = {D,A,I,F masked, EL1h} and
zeroes x1..x3 for every vCPU; for CPU 0 it additionally writes x0 = DTB base
and PC = kernel entry; for every secondary CPU the x0 and PC writes are
omitted. -/
theorem reset_vcpu_aarch64_protocol (cpu_id dtb kern : Nat) :
    ((ArmReg.pstate, PSR_D_BIT ||| PSR_A_BIT ||| PSR_I_BIT ||| PSR_F_BIT ||| PSR_MODE_EL1h)
        ∈ reset_vcpu_aarch64 cpu_id dtb kern)
    ∧ ((ArmReg.x 1, 0) ∈ reset_vcpu_aarch64 cpu_id dtb kern)
    ∧ ((ArmReg.x 2, 0) ∈ reset_vcpu_aarch64 cpu_id dtb kern)
    ∧ ((ArmReg.x 3, 0) ∈ reset_vcpu_aarch64 cpu_id dtb kern)
    ∧ (cpu_id = 0 →
        (ArmReg.x 0, dtb) ∈ reset_vcpu_aarch64 cpu_id dtb kern ∧
        (ArmReg.pc, kern) ∈ reset_vcpu_aarch64 cpu_id dtb kern)
    ∧ (cpu_id ≠ 0 →
        (∀ v, (ArmReg.x 0, v) ∉ reset_vcpu_aarch64 cpu_id dtb kern) ∧
        (∀ v, (ArmReg.pc, v) ∉ reset_vcpu_aarch64 cpu_id dtb kern)) := by
  unfold reset_vcpu_aarch64
  by_cases h : cpu_id = 0 <;> simp [h]

/-- Witness for C9: CPU 0 gets x0 = DTB and PC = kernel entry, CPU 1 gets
neither. -/
theorem reset_vcpu_aarch64_protocol_witness :
    ((ArmReg.x 0, 1234) ∈ reset_vcpu_aarch64 0 1234 5678 ∧
     (ArmReg.pc, 5678) ∈ reset_vcpu_aarch64 0 1234 5678)
    ∧ (∀ v, (ArmReg.x 0, v) ∉ reset_vcpu_aarch64 1 1234 5678) :=
  ⟨(reset_vcpu_aarch64_protocol 0 1234 5678).2.2.2.2.1 rfl,
   ((reset_vcpu_aarch64_protocol 1 1234 5678).2.2.2.2.2 (by decide)).1⟩

/-! ## State-flag lemmas -/

theorem msi_is_enabled_eq (x : Nat) : msi_is_enabled x = x.testBit 0 := by
  have h := Nat.and_two_pow x 0
  simp only [pow_zero, mul_one] at h
  unfold msi_is_enabled VFIO_PCI_MSI_STATE_ENABLED
  rw [h]
  cases hx : x.testBit 0 <;> simp [hx]

theorem msi_is_masked_eq (x : Nat) : msi_is_masked x = x.testBit 1 := by
  have h := Nat.and_two_pow x 1
  simp only [pow_one] at h
  unfold msi_is_masked VFIO_PCI_MSI_STATE_MASKED
  rw [h]
  cases hx : x.testBit 1 <;> simp [hx]

theorem msi_is_empty_eq (x : Nat) : msi_is_empty x = x.testBit 2 := by
  have h := Nat.and_two_pow x 2
  have h4 : (2 : Nat) ^ 2 = 4 := by norm_num
  rw [h4] at h
  unfold msi_is_empty VFIO_PCI_MSI_STATE_EMPTY
  rw [h]
  cases hx : x.testBit 2 <;> simp [hx]

theorem testBit_bit1 (i : Nat) : Nat.testBit 1 i = decide (0 = i) := by
  have h := @Nat.testBit_two_pow 0 i
  simpa using h

theorem testBit_bit2 (i : Nat) : Nat.testBit 2 i = decide (1 = i) := by
  have h := @Nat.testBit_two_pow 1 i
  simpa using h

theorem testBit_bit4 (i : Nat) : Nat.testBit 4 i = decide (2 = i) := by
  have h := @Nat.testBit_two_pow 2 i
  norm_num at h
  exact h

/-- Effect of `msi_update_state` on a low test bit. -/
theorem testBit_update_state (s m : Nat) (v : Bool) (i : Nat) (hi : i < 32) :
    (msi_update_state s v m).testBit i =
      if v then (s.testBit i || m.testBit i) else (s.testBit i && !m.testBit i) := by
  have hM : Nat.testBit 4294967295 i = true := by
    interval_cases i <;> decide
  unfold msi_update_state
  cases v <;> simp [Nat.testBit_or, Nat.testBit_and, Nat.testBit_xor, hM]

theorem msi_is_enabled_set_enabled (s : Nat) (v : Bool) :
    msi_is_enabled (msi_set_enabled s v) = v := by
  rw [msi_is_enabled_eq, msi_set_enabled,
    testBit_update_state _ _ _ _ (by norm_num)]
  cases v <;> simp [VFIO_PCI_MSI_STATE_ENABLED, testBit_bit1]

theorem msi_is_enabled_set_masked (s : Nat) (v : Bool) :
    msi_is_enabled (msi_set_masked s v) = msi_is_enabled s := by
  rw [msi_is_enabled_eq, msi_is_enabled_eq, msi_set_masked,
    testBit_update_state _ _ _ _ (by norm_num)]
  cases v <;> simp [VFIO_PCI_MSI_STATE_MASKED, testBit_bit2]

theorem msi_is_enabled_set_empty (s : Nat) (v : Bool) :
    msi_is_enabled (msi_set_empty s v) = msi_is_enabled s := by
  rw [msi_is_enabled_eq, msi_is_enabled_eq, msi_set_empty,
    testBit_update_state _ _ _ _ (by norm_num)]
  cases v <;> simp [VFIO_PCI_MSI_STATE_EMPTY, testBit_bit4]

theorem msi_is_masked_set_enabled (s : Nat) (v : Bool) :
    msi_is_masked (msi_set_enabled s v) = msi_is_masked s := by
  rw [msi_is_masked_eq, msi_is_masked_eq, msi_set_enabled,
    testBit_update_state _ _ _ _ (by norm_num)]
  cases v <;> simp [VFIO_PCI_MSI_STATE_ENABLED, testBit_bit1]

theorem msi_is_masked_set_masked (s : Nat) (v : Bool) :
    msi_is_masked (msi_set_masked s v) = v := by
  rw [msi_is_masked_eq, msi_set_masked,
    testBit_update_state _ _ _ _ (by norm_num)]
  cases v <;> simp [VFIO_PCI_MSI_STATE_MASKED, testBit_bit2]

theorem msi_is_masked_set_empty (s : Nat) (v : Bool) :
    msi_is_masked (msi_set_empty s v) = msi_is_masked s := by
  rw [msi_is_masked_eq, msi_is_masked_eq, msi_set_empty,
    testBit_update_state _ _ _ _ (by norm_num)]
  cases v <;> simp [VFIO_PCI_MSI_STATE_EMPTY, testBit_bit4]

theorem msi_is_empty_set_enabled (s : Nat) (v : Bool) :
    msi_is_empty (msi_set_enabled s v) = msi_is_empty s := by
  rw [msi_is_empty_eq, msi_is_empty_eq, msi_set_enabled,
    testBit_update_state _ _ _ _ (by norm_num)]
  cases v <;> simp [VFIO_PCI_MSI_STATE_ENABLED, testBit_bit1]

theorem msi_is_empty_set_masked (s : Nat) (v : Bool) :
    msi_is_empty (msi_set_masked s v) = msi_is_empty s := by
  rw [msi_is_empty_eq, msi_is_empty_eq, msi_set_masked,
    testBit_update_state _ _ _ _ (by norm_num)]
  cases v <;> simp [VFIO_PCI_MSI_STATE_MASKED, testBit_bit2]

theorem msi_is_empty_set_empty (s : Nat) (v : Bool) :
    msi_is_empty (msi_set_empty s v) = v := by
  rw [msi_is_empty_eq, msi_set_empty,
    testBit_update_state _ _ _ _ (by norm_num)]
  cases v <;> simp [VFIO_PCI_MSI_STATE_EMPTY, testBit_bit4]

/-! ## Framing lemmas -/

theorem getCap_setCap (d : VfioPciDevice) (b : Bool) (m : MsiCommon) :
    getCap (setCap d b m) b = m := by
  cases b <;> simp [getCap, setCap]

theorem setCap_intx_fd (d : VfioPciDevice) (b : Bool) (m : MsiCommon) :
    (setCap d b m).intx_fd = d.intx_fd := by
  cases b <;> simp [setCap]

theorem disable_intx_intx_fd (d : VfioPciDevice) (h : Host) :
    (vfio_pci_disable_intx d h).1.intx_fd = -1 := by
  unfold vfio_pci_disable_intx
  split
  · next heq => simpa using heq
  · simp

theorem disable_intx_caps (d : VfioPciDevice) (h : Host) (b : Bool) :
    getCap (vfio_pci_disable_intx d h).1 b = getCap d b := by
  unfold vfio_pci_disable_intx
  cases b <;> split <;> rfl

/-- The per-vector branch of `vfio_pci_enable_msis` never changes the
capability `host_state`: its only write to it is guarded by the EMPTY bit,
which is clear whenever the branch is reachable. -/
theorem enableMsisSingleLoop_host_state (idx : Nat) (entries : List MsiEntry)
    (is : List Nat) (efds : List Int) (hs : Nat) (h : Host)
    (hemp : msi_is_empty hs = false) :
    (enableMsisSingleLoop idx entries is efds hs h).2.2.1 = hs := by
  induction is generalizing efds h with
  | nil => rfl
  | cons i rest ih =>
    simp only [enableMsisSingleLoop]
    repeat' split
    all_goals first
      | rfl
      | exact ih _ _
      | simp_all

end VfioPci

namespace VfioPci

/-! ## Claim C5: MSI-X table access validation -/

/-- Claim C5 — an MSI-X table access whose length is not 4 or 8, or whose
address is not aligned to its length, or whose offset lies at or beyond
`table->size`, is ignored: the device model and the host are left exactly as
they were and no data is returned; consequently, after such a rejected write
any subsequent read sees exactly what it would have seen before it. -/
theorem msix_table_access_rejected (d : VfioPciDevice) (h : Host) (addr : Nat)
    (data : List Nat) (len : Nat) (is_write : Bool)
    (hrej : (len ≠ 4 ∧ len ≠ 8) ∨ (len = 4 ∨ len = 8) ∧ addr % len ≠ 0
            ∨ addr - d.msix_table_base ≥ d.msix_table_size) :
    vfio_pci_msix_table_access d h addr data len is_write = (d, h, none)
    ∧ ∀ addr2 data2 len2,
        vfio_pci_msix_table_access (vfio_pci_msix_table_access d h addr data len true).1
          (vfio_pci_msix_table_access d h addr data len true).2.1 addr2 data2 len2 false
        = vfio_pci_msix_table_access d h addr2 data2 len2 false := by
  have key : ∀ w, vfio_pci_msix_table_access d h addr data len w = (d, h, none) := by
    intro w
    unfold vfio_pci_msix_table_access
    by_cases ho : addr - d.msix_table_base ≥ d.msix_table_size
    · simp [ho]
    · have hlen : (len ≠ 4 ∧ len ≠ 8) ∨ addr &&& (len - 1) ≠ 0 := by
        rcases hrej with h1 | h2 | h3
        · exact Or.inl h1
        · refine Or.inr ?_
          rcases h2 with ⟨h4 | h8, hmod⟩
          · subst h4
            have : addr &&& 3 = addr % 4 := Nat.and_pow_two_sub_one_eq_mod addr 2
            simpa [this] using hmod
          · subst h8
            have : addr &&& 7 = addr % 8 := Nat.and_pow_two_sub_one_eq_mod addr 3
            simpa [this] using hmod
        · exact absurd h3 ho
      simp [ho, hlen]
  refine ⟨key is_write, fun addr2 data2 len2 => ?_⟩
  rw [key true]

/-- Witness for C5: a 2-byte write to table offset 0 is rejected. -/
theorem msix_table_access_rejected_witness :
    vfio_pci_msix_table_access
      ⟨List.replicate 256 0, 4, -1, -1, 5, ⟨0x40, 1, 0, 0, 0, [], []⟩,
       ⟨0x50, 2, 0, 0, 1, [default], [-1]⟩, 0x1000, 16⟩
      ⟨100, 10, [], [], false, false, false, false, []⟩ 0x1000 [5, 5] 2 true
    = (⟨List.replicate 256 0, 4, -1, -1, 5, ⟨0x40, 1, 0, 0, 0, [], []⟩,
        ⟨0x50, 2, 0, 0, 1, [default], [-1]⟩, 0x1000, 16⟩,
       ⟨100, 10, [], [], false, false, false, false, []⟩, none) :=
  (msix_table_access_rejected _ _ 0x1000 [5, 5] 2 true (by decide)).1

/-! ## Claim C7: host_state is untouched when SET_IRQS fails -/

/-- `vfio_pci_enable_msis` either returns success or leaves the capability's
`host_state` unchanged: the only branch that modifies `host_state` and can
still report a failure is the per-vector loop, which never actually touches
it (`enableMsisSingleLoop_host_state`). -/
theorem enable_msis_result (d : VfioPciDevice) (h : Host) (msix : Bool) :
    (vfio_pci_enable_msis d h msix).1 = 0
    ∨ (getCap (vfio_pci_enable_msis d h msix).2.1 msix).host_state
        = (getCap d msix).host_state := by
  simp only [vfio_pci_enable_msis]
  repeat' split
  all_goals first
    | exact Or.inl rfl
    | (right; simp_all [getCap_setCap, enableMsisSingleLoop_host_state])

/-- Claim C7 — if the `SET_IRQS` ioctl of an enable transition fails (the
function returns a negative code), or the disarm `SET_IRQS` of a disable
transition fails (the failure oracle fails the next ioctl), the capability's
`host_state` is exactly what it was before the transition, so the next guest
action retries the reconciliation. -/
theorem host_state_unchanged_on_set_irqs_failure (d : VfioPciDevice) (h : Host)
    (msix : Bool) :
    ((vfio_pci_enable_msis d h msix).1 < 0 →
      (getCap (vfio_pci_enable_msis d h msix).2.1 msix).host_state
        = (getCap d msix).host_state)
    ∧ (h.failSetIrqs.headD false = true →
      (getCap (vfio_pci_disable_msis d h msix).2.1 msix).host_state
        = (getCap d msix).host_state) := by
  constructor
  · intro hret
    rcases enable_msis_result d h msix with h0 | hsame
    · rw [h0] at hret; exact absurd hret (by simp)
    · exact hsame
  · intro hfail
    have hfail' : h.failSetIrqs.head?.getD false = true := by
      simpa [List.headD_eq_head?_getD] using hfail
    simp only [vfio_pci_disable_msis]
    split
    · rfl
    · simp [host_set_irqs, hfail']

/-- Witness for C7: with the next `SET_IRQS` set to fail, an enable of a
guest-enabled MSI-X capability returns an error and leaves `host_state`
untouched, and so does a disable of a host-enabled capability. -/
theorem host_state_unchanged_on_set_irqs_failure_witness :
    ((vfio_pci_enable_msis
        ⟨List.replicate 256 0, 4, -1, -1, 5, ⟨0x40, 1, 0, 0, 0, [], []⟩,
         ⟨0x50, 2, 1, 0, 1, [default], [-1]⟩, 0x1000, 16⟩
        ⟨100, 10, [], [true], false, false, false, false, []⟩ true).1 < 0
      ∧ (getCap (vfio_pci_enable_msis
          ⟨List.replicate 256 0, 4, -1, -1, 5, ⟨0x40, 1, 0, 0, 0, [], []⟩,
           ⟨0x50, 2, 1, 0, 1, [default], [-1]⟩, 0x1000, 16⟩
          ⟨100, 10, [], [true], false, false, false, false, []⟩ true).2.1 true).host_state
        = (getCap ⟨List.replicate 256 0, 4, -1, -1, 5, ⟨0x40, 1, 0, 0, 0, [], []⟩,
           ⟨0x50, 2, 1, 0, 1, [default], [-1]⟩, 0x1000, 16⟩ true).host_state)
    ∧ (getCap (vfio_pci_disable_msis
          ⟨List.replicate 256 0, 4, -1, -1, 5, ⟨0x40, 1, 0, 0, 0, [], []⟩,
           ⟨0x50, 2, 1, 1, 1, [default], [-1]⟩, 0x1000, 16⟩
          ⟨100, 10, [], [true], false, false, false, false, []⟩ true).2.1 true).host_state
        = (getCap ⟨List.replicate 256 0, 4, -1, -1, 5, ⟨0x40, 1, 0, 0, 0, [], []⟩,
           ⟨0x50, 2, 1, 1, 1, [default], [-1]⟩, 0x1000, 16⟩ true).host_state := by
  refine ⟨⟨by decide, (host_state_unchanged_on_set_irqs_failure _ _ true).1 (by decide)⟩, ?_⟩
  exact (host_state_unchanged_on_set_irqs_failure _ _ true).2 (by decide)

end VfioPci

namespace VfioPci

/-! ## Claim C6: disabling MSI/MSI-X falls back to INTx -/

theorem setCap_irq_modes (d : VfioPciDevice) (b : Bool) (m : MsiCommon) :
    (setCap d b m).irq_modes = d.irq_modes := by
  cases b <;> simp [setCap]

theorem getCap_update_intx (x : VfioPciDevice) (b : Bool) (t u : Int) :
    getCap {x with intx_fd := t, unmask_fd := u} b = getCap x b := by
  cases b <;> rfl

/-- Claim C6 — when the guest disables an MSI or MSI-X capability that is
enabled on the host and the device supports INTx, the capability is disarmed
on the host with a count = 0 `SET_IRQS` (the first host call of the
transition) and INTx is then re-armed (`intx_fd` is live afterwards), the
capability being left host-disabled. -/
theorem disable_msis_reenables_intx (d : VfioPciDevice) (h : Host) (msix : Bool)
    (hen : msi_is_enabled (getCap d msix).host_state = true)
    (hintx : d.irq_modes &&& VFIO_PCI_IRQ_MODE_INTX ≠ 0)
    (hq : h.failSetIrqs = []) (hev : h.failEventfd = false)
    (hif : h.failIrqfd = false) :
    (vfio_pci_disable_msis d h msix).2.1.intx_fd ≠ -1
    ∧ msi_is_enabled (getCap (vfio_pci_disable_msis d h msix).2.1 msix).host_state = false
    ∧ ∃ rest, (vfio_pci_disable_msis d h msix).2.2.trace
        = h.trace ++ HostCall.setIrqsNone (getCap d msix).index 0 :: rest := by
  have hcast : ∀ n : Nat, ¬((n : Int) < 0) := by intro n; omega
  have hcast1 : ∀ n : Nat, ¬((n : Int) + 1 < 0) := by intro n; omega
  have hne : ∀ n : Nat, ((n : Int) ≠ -1) := by intro n; omega
  have hne1 : ∀ n : Nat, ((n : Int) + 1 ≠ -1) := by intro n; omega
  cases msix
  case false =>
    have hen' : msi_is_enabled d.msi.host_state = true := hen
    by_cases hfd : d.intx_fd = -1 <;> refine ⟨?_, ?_, ?_⟩ <;>
      simp [vfio_pci_disable_msis, vfio_pci_enable_intx, getCap, setCap, hen', hq,
        hev, hif, hfd, hintx, host_set_irqs, host_eventfd, host_add_irqfd,
        Host.record, hcast, hcast1, hne, hne1, msi_is_enabled_set_enabled,
        msi_is_enabled_set_empty]
  case true =>
    have hen' : msi_is_enabled d.msix.host_state = true := hen
    by_cases hfd : d.intx_fd = -1 <;> refine ⟨?_, ?_, ?_⟩ <;>
      simp [vfio_pci_disable_msis, vfio_pci_enable_intx, getCap, setCap, hen', hq,
        hev, hif, hfd, hintx, host_set_irqs, host_eventfd, host_add_irqfd,
        Host.record, hcast, hcast1, hne, hne1, msi_is_enabled_set_enabled,
        msi_is_enabled_set_empty]

end VfioPci

namespace VfioPci

/-! ## Concrete sample states for witnesses and counterexamples -/

/-- A freshly initialized vector, as left by `vfio_pci_create_msix_table`
followed by `vfio_pci_init_msis`. -/
def sampleEntry : MsiEntry := initMsiEntry ⟨msixInitConfig, 0, 0, 0, 0⟩

/-- A host in its initial state with all calls succeeding. -/
def sampleHost : Host := ⟨100, 10, [], [], false, false, false, false, []⟩

/-- A one-vector MSI capability at position 0x40 (VFIO irq index 1). -/
def sampleMsiCap : MsiCommon := ⟨0x40, 1, 0, 0, 1, [sampleEntry], [-1]⟩

/-- A one-vector MSI-X capability at position 0x50 (VFIO irq index 2). -/
def sampleMsixCap : MsiCommon := ⟨0x50, 2, 0, 0, 1, [sampleEntry], [-1]⟩

/-- Witness for C6 at a concrete device: INTx+MSI-X device with MSI-X
host-enabled; disabling re-arms INTx. -/
theorem disable_msis_reenables_intx_witness :
    (vfio_pci_disable_msis
        ⟨List.replicate 256 0, 5, -1, -1, 5, sampleMsiCap,
         ⟨0x50, 2, 0, 1, 1, [sampleEntry], [-1]⟩, 0x1000, 16⟩
        sampleHost true).2.1.intx_fd ≠ -1
    ∧ msi_is_enabled (getCap (vfio_pci_disable_msis
        ⟨List.replicate 256 0, 5, -1, -1, 5, sampleMsiCap,
         ⟨0x50, 2, 0, 1, 1, [sampleEntry], [-1]⟩, 0x1000, 16⟩
        sampleHost true).2.1 true).host_state = false
    ∧ ∃ rest, (vfio_pci_disable_msis
        ⟨List.replicate 256 0, 5, -1, -1, 5, sampleMsiCap,
         ⟨0x50, 2, 0, 1, 1, [sampleEntry], [-1]⟩, 0x1000, 16⟩
        sampleHost true).2.2.trace
      = sampleHost.trace ++ HostCall.setIrqsNone (getCap
          ⟨List.replicate 256 0, 5, -1, -1, 5, sampleMsiCap,
           ⟨0x50, 2, 0, 1, 1, [sampleEntry], [-1]⟩, 0x1000, 16⟩ true).index 0 :: rest :=
  disable_msis_reenables_intx _ sampleHost true (by decide) (by decide) rfl rfl rfl

/-! ## Claim C1: mutual exclusion of host interrupt modes -/

/-- A device supporting both MSI and MSI-X (no INTx pin), fresh from setup. -/
def c1dev : VfioPciDevice :=
  ⟨List.replicate 256 0, 6, -1, -1, 5, sampleMsiCap, sampleMsixCap, 0x1000, 16⟩

/-- The guest enables MSI (config write of 0x01 to the MSI control byte). -/
def c1afterMsi : VfioPciDevice × Host :=
  vfio_pci_msi_cap_write c1dev sampleHost 0x42 [0x01] 1

/-- The guest then enables MSI-X (config write of 0x80 to the high MSI-X
control byte) without disabling MSI. -/
def c1afterMsix : VfioPciDevice × Host :=
  vfio_pci_msix_cap_write c1afterMsi.1 c1afterMsi.2 0x53 [0x80] 1

/-- Counterexample to claim C1 as stated: a guest that enables MSI and then
MSI-X reaches a state in which both capabilities have `host_state.ENABLED`
set, so "at most one of INTx, MSI, MSI-X is enabled on the host" is not an
invariant of every reachable state — nothing in `vfio_pci_enable_msis` tears
down the other message-signalled capability. -/
theorem msi_msix_both_host_enabled :
    msi_is_enabled c1afterMsix.1.msi.host_state = true
    ∧ msi_is_enabled c1afterMsix.1.msix.host_state = true := by decide

/-- Claim C1 (amended) — the INTx half of the claim holds: every transition
of `vfio_pci_enable_msis` that proceeds (guest capability enabled, device
supports INTx) first tears down INTx, so INTx is disarmed after the
transition.  The three-way mutual exclusion itself fails
(`msi_msix_both_host_enabled`). -/
theorem enable_msis_tears_down_intx (d : VfioPciDevice) (h : Host) (msix : Bool)
    (hguest : msi_is_enabled (getCap d msix).guest_state = true)
    (hintx : d.irq_modes &&& VFIO_PCI_IRQ_MODE_INTX ≠ 0) :
    (vfio_pci_enable_msis d h msix).2.1.intx_fd = -1 := by
  simp only [vfio_pci_enable_msis]
  repeat' split
  all_goals first
    | (simp [setCap_intx_fd, disable_intx_intx_fd]; done)
    | simp_all

/-- Witness for the amended C1: an INTx+MSI-X device with MSI-X guest-enabled
and INTx armed ends with INTx disarmed after `vfio_pci_enable_msis`. -/
theorem enable_msis_tears_down_intx_witness :
    (vfio_pci_enable_msis
        ⟨List.replicate 256 0, 5, 3, 4, 5, sampleMsiCap,
         ⟨0x50, 2, 1, 0, 1, [sampleEntry], [-1]⟩, 0x1000, 16⟩
        sampleHost true).2.1.intx_fd = -1 :=
  enable_msis_tears_down_intx _ sampleHost true (by decide) (by decide)

/-! ## Claim C4: the MSI vector-programming loop can index out of bounds -/

/-- An MSI-only device whose capability advertises QMASK = 0, so exactly one
vector was allocated (`vfio_pci_create_msi_cap`). -/
def c4dev : VfioPciDevice :=
  ⟨List.replicate 256 0, 2, -1, -1, 5, sampleMsiCap, sampleMsixCap, 0x1000, 16⟩

/-- Claim C4 (code bug) — the guest writes MSI control byte 0x71 (enable = 1,
QSIZE = 7): `vfio_pci_msi_cap_write` computes `nr_vectors = 128` from the
guest-controlled byte while only `nr_entries = 1` entries were allocated from
the device's QMASK, and its programming loop accesses vector indices beyond
the allocation (flagged as `oob` in the model; a heap overrun in the C
code). -/
theorem msi_cap_write_vector_loop_oob :
    msiNrVectors 0x71 = 128
    ∧ c4dev.msi.nr_entries = msiNrEntries 0
    ∧ msiNrEntries 0 = 1
    ∧ (vfio_pci_msi_cap_write c4dev sampleHost 0x42 [0x71] 1).2.oob = true := by decide

end VfioPci

namespace VfioPci

/-! ## Claim C2: the EMPTY lazy-initialization gate -/

/-- `vfio_pci_update_msi_entry` issues no `SET_IRQS` ioctl: it only creates
eventfds and manipulates KVM routes. -/
theorem countSetIrqs_append (t : List HostCall) (c : HostCall) :
    countSetIrqs (t ++ [c]) = countSetIrqs t + c.isSetIrqs.toNat := by
  simp only [countSetIrqs, List.filter_append, List.length_append]
  cases hc : c.isSetIrqs <;> simp [List.filter, hc]

theorem update_msi_entry_no_set_irqs (h : Host) (e : MsiEntry) :
    countSetIrqs (vfio_pci_update_msi_entry h e).2.2.trace = countSetIrqs h.trace := by
  have hcast : ∀ n : Nat, ¬((n : Int) < 0) := by intro n; omega
  by_cases h1 : e.eventfd < 0 <;>
  by_cases h2 : h.failEventfd = true <;>
  by_cases h3 : e.gsi < 0 <;>
  by_cases h4 : h.failRoute = true <;>
  by_cases h5 : msi_is_masked e.guest_state = msi_is_masked e.host_state <;>
  by_cases h6 : msi_is_masked e.host_state = true <;>
  by_cases h7 : h.failIrqfd = true <;>
  by_cases h8 : msi_is_masked e.guest_state = true <;>
  simp [vfio_pci_update_msi_entry, host_eventfd, host_add_msix_route,
    host_upd_msix_route, host_add_irqfd, host_del_irqfd, Host.record,
    countSetIrqs, List.filter_append, List.filter, HostCall.isSetIrqs,
    h1, h2, h3, h4, h5, h6, h7, h8, hcast]

/-- While the MSI-X capability is enabled on the host and the guest holds it
masked (and INTx is down), `vfio_pci_enable_msis` does not touch the host at
all. -/
theorem enable_msis_masked_silent (d : VfioPciDevice) (h : Host)
    (hen : msi_is_enabled d.msix.host_state = true)
    (hcm : msi_is_masked d.msix.guest_state = true)
    (hfd : d.intx_fd = -1) :
    (vfio_pci_enable_msis d h true).2.2 = h := by
  simp [vfio_pci_enable_msis, vfio_pci_disable_intx, getCap, hen, hcm, hfd]

/-- While the capability is host-ENABLED (in particular during the
EMPTY-while-masked window), a guest config write that sets both the MSI-X
Enable and the Mask-All bit issues no host call at all. -/
theorem msix_cap_write_masked_silent (d : VfioPciDevice) (h : Host) (off : Nat)
    (data : List Nat) (sz : Nat)
    (hen : msi_is_enabled d.msix.host_state = true)
    (hem : msi_is_empty d.msix.host_state = true)
    (hfd : d.intx_fd = -1)
    (hmask : (((data.getD (3 - ((off % 65536) + 65536 - (d.msix.pos % 65536)) % 65536) 0)
        <<< 8) &&& PCI_MSIX_FLAGS_MASKALL != 0) = true)
    (henb : (((data.getD (3 - ((off % 65536) + 65536 - (d.msix.pos % 65536)) % 65536) 0)
        <<< 8) &&& PCI_MSIX_FLAGS_ENABLE != 0) = true) :
    (vfio_pci_msix_cap_write d h off data sz).2.trace = h.trace := by
  simp only [vfio_pci_msix_cap_write]
  split
  · rfl
  · simp only [List.getD_eq_getElem?_getD] at hmask henb
    simp only [bne_iff_ne, ne_eq] at hmask henb
    simp [vfio_pci_enable_msis, vfio_pci_disable_intx, getCap, hen, hfd, hmask, henb,
      msi_is_enabled_set_enabled, msi_is_masked_set_enabled, msi_is_masked_set_masked]

/-- While the capability is host-ENABLED and guest-masked (the EMPTY
accumulation window), an MSI-X table write updates the vector model and the
KVM routes but issues no `SET_IRQS` ioctl. -/
theorem msix_table_write_no_set_irqs (d : VfioPciDevice) (h : Host) (addr : Nat)
    (data : List Nat) (len : Nat)
    (hen : msi_is_enabled d.msix.host_state = true)
    (hem : msi_is_empty d.msix.host_state = true)
    (hcm : msi_is_masked d.msix.guest_state = true)
    (hfd : d.intx_fd = -1) :
    countSetIrqs (vfio_pci_msix_table_access d h addr data len true).2.1.trace
      = countSetIrqs h.trace := by
  simp only [vfio_pci_msix_table_access]
  repeat' split
  all_goals first
    | rfl
    | (rw [enable_msis_masked_silent (updMsixEntry d _ _) _ hen hcm hfd]
       exact update_msi_entry_no_set_irqs _ _)

end VfioPci

namespace VfioPci

/-- Scenario device for the lazy-init window: MSI-X only, `n` vectors, the
capability already enabled on the host with EMPTY set (the state after the
guest's first enable-while-masked write), all vectors still fresh. -/
def c2scDev (n : Nat) : VfioPciDevice :=
  ⟨[], 4, -1, -1, 5, sampleMsiCap,
   ⟨0x50, 2, 0, 5, n, List.replicate n sampleEntry, List.replicate n (-1)⟩, 0x1000, 16 * n⟩

/-- Scenario step 1: the guest writes MSI-X enable = 1, mask-all = 1. -/
def c2step1 (n : Nat) : VfioPciDevice × Host :=
  vfio_pci_msix_cap_write (c2scDev n) sampleHost 0x53 [0xC0] 1

/-- Scenario step 2: the guest programs vector 0's control word with mask = 0
(a 4-byte write to table offset 12). -/
def c2step2 (n : Nat) : VfioPciDevice × Host × Option (List Nat) :=
  vfio_pci_msix_table_access (c2step1 n).1 (c2step1 n).2 0x100C [0, 0, 0, 0] 4 true

/-- Scenario step 3: the guest writes mask-all = 0 (keeping enable = 1). -/
def c2step3 (n : Nat) : VfioPciDevice × Host :=
  vfio_pci_msix_cap_write (c2step2 n).1 (c2step2 n).2.1 0x53 [0x80] 1

/-- The lazy-init scenario at `nr_entries = 2`: steps 1 and 2 issue no
`SET_IRQS`; the unmask in step 3 issues exactly one bulk `SET_IRQS` whose fd
array covers both slots, with a live eventfd in slot 0 and -1 in the
remaining slot. -/
theorem c2_scenario :
    (c2step1 2).2.trace = []
    ∧ countSetIrqs (c2step2 2).2.1.trace = 0
    ∧ (c2step3 2).2.trace
        = (c2step2 2).2.1.trace ++ [HostCall.setIrqsFds 2 0 [100, -1]]
    ∧ countSetIrqs (c2step3 2).2.trace = 1 := by decide

/-- The guest state after enabling and then disabling MSI-X on a fresh
MSI-X-only device: the capability's `host_state` is EMPTY and not ENABLED. -/
def c2afterDisable : VfioPciDevice × Host :=
  let a := vfio_pci_msix_cap_write
    ⟨[], 4, -1, -1, 5, sampleMsiCap, sampleMsixCap, 0x1000, 16⟩
    sampleHost 0x53 [0xC0] 1
  vfio_pci_msix_cap_write a.1 a.2 0x53 [0x00] 1

/-- Re-enabling (enable = 1, mask-all = 1) from the post-disable state. -/
def c2reenable : VfioPciDevice × Host :=
  vfio_pci_msix_cap_write c2afterDisable.1 c2afterDisable.2 0x53 [0xC0] 1

/-- Counterexample to claim C2 as stated: after an enable/disable cycle the
capability's `host_state` has EMPTY set (and ENABLED clear); the guest's next
write of enable = 1 together with mask-all = 1 — activity the claim says
issues no host `SET_IRQS` while EMPTY is set — issues one bulk `SET_IRQS`
(the "first enable" registration). -/
theorem msix_empty_gate_counterexample :
    msi_is_empty c2afterDisable.1.msix.host_state = true
    ∧ msi_is_enabled c2afterDisable.1.msix.host_state = false
    ∧ countSetIrqs c2reenable.2.trace = countSetIrqs c2afterDisable.2.trace + 1 := by
  decide

/-- Claim C2 (amended) — the EMPTY gate holds on states where EMPTY is set
and the capability is still enabled on the host (EMPTY alone is not enough:
after a disable, host_state is EMPTY-but-not-ENABLED and the next enable does
issue a `SET_IRQS`, see the counterexample).  In that window: (1) a guest
config write setting enable = 1 and mask-all = 1 performs no host call; (2) a
guest MSI-X table write performs no `SET_IRQS` (only eventfd/route plumbing);
(3) in the two-vector scenario where only vector 0 was programmed, the first
unmask issues exactly one bulk `SET_IRQS` covering all `nr_entries` slots with
`eventfds[0] = 100 ≥ 0` and -1 in the remaining slot. -/
theorem msix_empty_gate_amended :
    (∀ (d : VfioPciDevice) (h : Host) (off : Nat) (data : List Nat) (sz : Nat),
      msi_is_enabled d.msix.host_state = true →
      msi_is_empty d.msix.host_state = true →
      d.intx_fd = -1 →
      (((data.getD (3 - ((off % 65536) + 65536 - (d.msix.pos % 65536)) % 65536) 0)
          <<< 8) &&& PCI_MSIX_FLAGS_MASKALL != 0) = true →
      (((data.getD (3 - ((off % 65536) + 65536 - (d.msix.pos % 65536)) % 65536) 0)
          <<< 8) &&& PCI_MSIX_FLAGS_ENABLE != 0) = true →
      (vfio_pci_msix_cap_write d h off data sz).2.trace = h.trace)
    ∧ (∀ (d : VfioPciDevice) (h : Host) (addr : Nat) (data : List Nat) (len : Nat),
      msi_is_enabled d.msix.host_state = true →
      msi_is_empty d.msix.host_state = true →
      msi_is_masked d.msix.guest_state = true →
      d.intx_fd = -1 →
      countSetIrqs (vfio_pci_msix_table_access d h addr data len true).2.1.trace
        = countSetIrqs h.trace)
    ∧ ((c2step1 2).2.trace = []
       ∧ countSetIrqs (c2step2 2).2.1.trace = 0
       ∧ (c2step3 2).2.trace
           = (c2step2 2).2.1.trace ++ [HostCall.setIrqsFds 2 0 [100, -1]]
       ∧ countSetIrqs (c2step3 2).2.trace = 1) :=
  ⟨fun d h off data sz h1 h2 h3 h4 h5 =>
      msix_cap_write_masked_silent d h off data sz h1 h2 h3 h4 h5,
   fun d h addr data len h1 h2 h3 h4 =>
      msix_table_write_no_set_irqs d h addr data len h1 h2 h3 h4,
   c2_scenario⟩

/-- Witness for the amended C2: the gate lemmas applied on the concrete
two-vector scenario device. -/
theorem msix_empty_gate_amended_witness :
    (vfio_pci_msix_cap_write (c2scDev 2) sampleHost 0x53 [0xC0] 1).2.trace
      = sampleHost.trace
    ∧ countSetIrqs (vfio_pci_msix_table_access (c2step1 2).1 (c2step1 2).2 0x100C
        [0, 0, 0, 0] 4 true).2.1.trace = countSetIrqs (c2step1 2).2.trace :=
  ⟨msix_empty_gate_amended.1 (c2scDev 2) sampleHost 0x53 [0xC0] 1
      (by decide) (by decide) (by decide) (by decide) (by decide),
   msix_empty_gate_amended.2.1 (c2step1 2).1 (c2step1 2).2 0x100C [0, 0, 0, 0] 4
      (by decide) (by decide) (by decide) (by decide)⟩

end VfioPci

namespace VfioPci

/-! ## Claim C8: capability-chain parsing (`vfio_pci_parse_caps`)

The 256-byte legacy configuration header is a byte list.  The status word
lives at offset 6 (16-bit little-endian) and the capabilities pointer at
offset 0x34; since `PCI_STATUS_CAP_LIST = 0x10` only touches the low status
byte, the `status & PCI_STATUS_CAP_LIST` tests and updates of the C code are
modelled on byte 6 alone (`~PCI_STATUS_CAP_LIST` restricted to that byte is
0xEF). -/

/-- Write a 2-byte span? No: status updates only need byte 6; see above. -/
def statusCapList (bs : List Nat) : Nat := rdByte bs 6 &&& PCI_STATUS_CAP_LIST

/-- `vfio_pci_msi_cap_size`. -/
def vfio_pci_msi_cap_size (bs : List Nat) (pos : Nat) : Nat :=
  let ctrl := rdWord16 bs (pos + 2)
  10 + (if ctrl &&& PCI_MSI_FLAGS_64BIT ≠ 0 then 4 else 0)
     + (if ctrl &&& PCI_MSI_FLAGS_MASKBIT ≠ 0 then 10 else 0)

/-- `vfio_pci_cap_size` (returns 0 for unknown capability types, as the C
code does after printing an error). -/
def vfio_pci_cap_size (bs : List Nat) (pos : Nat) : Nat :=
  if rdByte bs pos = PCI_CAP_ID_MSIX then PCI_CAP_MSIX_SIZEOF
  else if rdByte bs pos = PCI_CAP_ID_MSI then vfio_pci_msi_cap_size bs pos
  else if rdByte bs pos = PCI_CAP_ID_EXP then PCI_CAP_EXP_RC_ENDPOINT_SIZEOF_V1
  else 0

/-- `memcpy(dst + pos, src + pos, n)` byte by byte. -/
def copyBytes (dst src : List Nat) (pos : Nat) : Nat → List Nat
  | 0 => dst
  | n+1 => wrByte (copyBytes dst src pos n) (pos + n) (rdByte src (pos + n))

/-- The `while (last->next) last = PCI_CAP(virt_hdr, last->next)` walk of
`vfio_pci_add_cap`, with fuel (the C loop trusts the virtual chain it built). -/
def findLastCap (virt : List Nat) : Nat → Nat → Nat
  | 0, pos => pos
  | fuel+1, pos =>
    if rdByte virt (pos + 1) = 0 then pos
    else findLastCap virt fuel (rdByte virt (pos + 1))

/-- `vfio_pci_add_cap`: zero the capability's next pointer (in the device
header it points into), link it at the head or tail of the virtual chain,
and copy its body into the virtual header. -/
def vfio_pci_add_cap (hdr0 virt : List Nat) (pos : Nat) : List Nat × List Nat :=
  let hdr := wrByte hdr0 (pos + 1) 0
  let size := vfio_pci_cap_size hdr pos
  if rdByte hdr 0x34 = 0 then
    let hdr := wrByte hdr 0x34 pos
    let hdr := wrByte hdr 6 (rdByte hdr 6 ||| PCI_STATUS_CAP_LIST)
    (hdr, copyBytes virt hdr pos size)
  else
    let last := findLastCap virt 256 (rdByte hdr 0x34)
    (hdr, copyBytes (wrByte virt (last + 1) pos) hdr pos size)

/-- The state threaded through the parse loop: the mutated device header,
the scratch virtual header, and the discovered irq modes / positions. -/
structure ParseState where
  hdr : List Nat
  virt : List Nat
  irq_modes : Nat
  msi_pos : Nat
  msix_pos : Nat
deriving Repr, DecidableEq

/-- The `for (; pos; pos = next)` walk of `vfio_pci_parse_caps`, with fuel
(`none` models the C loop never terminating on a cyclic device chain). -/
def parseCapsLoop (archExp : Bool) : Nat → ParseState → Nat → Option ParseState
  | 0, st, pos => if pos = 0 then some st else none
  | fuel+1, st, pos =>
    if pos = 0 then some st else
    let t := rdByte st.hdr pos
    let next := rdByte st.hdr (pos + 1)
    if t = PCI_CAP_ID_MSIX then
      let p := vfio_pci_add_cap st.hdr st.virt pos
      parseCapsLoop archExp fuel
        ⟨p.1, p.2, st.irq_modes ||| VFIO_PCI_IRQ_MODE_MSIX, st.msi_pos, pos⟩ next
    else if t = PCI_CAP_ID_MSI then
      let p := vfio_pci_add_cap st.hdr st.virt pos
      parseCapsLoop archExp fuel
        ⟨p.1, p.2, st.irq_modes ||| VFIO_PCI_IRQ_MODE_MSI, pos, st.msix_pos⟩ next
    else if t = PCI_CAP_ID_EXP then
      if archExp then
        let p := vfio_pci_add_cap st.hdr st.virt pos
        parseCapsLoop archExp fuel
          ⟨p.1, p.2, st.irq_modes, st.msi_pos, st.msix_pos⟩ next
      else parseCapsLoop archExp fuel st next
    else parseCapsLoop archExp fuel st next

/-- `vfio_pci_parse_caps`: early return when the device does not report a
capability list; otherwise clear the status bit and pointer, walk the device
chain, and overwrite bytes [0x40, 0x100) of the header from the scratch
buffer. -/
def vfio_pci_parse_caps (hdr : List Nat) (archExp : Bool) (fuel : Nat) :
    Option ParseState :=
  if statusCapList hdr = 0 then some ⟨hdr, List.replicate 256 0, 0, 0, 0⟩
  else
    let pos0 := rdByte hdr 0x34 &&& 0xFC
    let hdr1 := wrByte hdr 6 (rdByte hdr 6 &&& 0xEF)
    let hdr2 := wrByte hdr1 0x34 0
    match parseCapsLoop archExp fuel ⟨hdr2, List.replicate 256 0, 0, 0, 0⟩ pos0 with
    | none => none
    | some st =>
        some ⟨st.hdr.take 0x40 ++ (st.virt.drop 0x40).take 0xC0, st.virt,
              st.irq_modes, st.msi_pos, st.msix_pos⟩

/-- Walking a capability chain in a byte buffer: visited (position, type)
pairs; `none` when the fuel runs out before reaching next = 0. -/
def walkChain (bs : List Nat) : Nat → Nat → Option (List (Nat × Nat))
  | 0, pos => if pos = 0 then some [] else none
  | fuel+1, pos =>
    if pos = 0 then some []
    else (walkChain bs fuel (rdByte bs (pos + 1))).map
      (fun l => (pos, rdByte bs pos) :: l)

/-- A header whose status has CAP_LIST clear but whose capabilities pointer
byte is 0x44. -/
def c8badHdr : List Nat := wrByte (List.replicate 256 0) 0x34 0x44

set_option maxRecDepth 4000 in
/-- Counterexample to claim C8 as stated: for a device that reports CAP_LIST
clear while its capabilities pointer byte is non-zero, `vfio_pci_parse_caps`
returns immediately and leaves the header untouched, so after the parse phase
the virtual header violates `status.CAP_LIST ⇔ capabilities ≠ 0`. -/
theorem parse_caps_cap_list_counterexample :
    vfio_pci_parse_caps c8badHdr true 256
      = some ⟨c8badHdr, List.replicate 256 0, 0, 0, 0⟩
    ∧ statusCapList c8badHdr = 0
    ∧ rdByte c8badHdr 0x34 ≠ 0 := by decide

end VfioPci

namespace VfioPci

/-! ### Byte-store lemmas -/

theorem length_wrByte (bs : List Nat) (i v : Nat) : (wrByte bs i v).length = bs.length := by
  simp [wrByte]

theorem rdByte_wrByte_same (bs : List Nat) (i v : Nat) (h : i < bs.length) :
    rdByte (wrByte bs i v) i = v := by
  simp [rdByte, wrByte, List.getD_eq_getElem?_getD, List.getElem?_set_self', h]

theorem rdByte_wrByte_ne (bs : List Nat) (i j v : Nat) (h : i ≠ j) :
    rdByte (wrByte bs i v) j = rdByte bs j := by
  simp [rdByte, wrByte, List.getD_eq_getElem?_getD, List.getElem?_set_ne h]

theorem length_copyBytes (dst src : List Nat) (pos : Nat) :
    ∀ n, (copyBytes dst src pos n).length = dst.length
  | 0 => rfl
  | n+1 => by simp [copyBytes, length_wrByte, length_copyBytes dst src pos n]

theorem rdByte_copyBytes_out (dst src : List Nat) (pos : Nat) :
    ∀ n i, (i < pos ∨ pos + n ≤ i) → rdByte (copyBytes dst src pos n) i = rdByte dst i
  | 0, i, _ => rfl
  | n+1, i, h => by
    have hne : pos + n ≠ i := by omega
    rw [copyBytes, rdByte_wrByte_ne _ _ _ _ hne]
    exact rdByte_copyBytes_out dst src pos n i (by omega)

theorem rdByte_copyBytes_in (dst src : List Nat) (pos : Nat) :
    ∀ n i, pos ≤ i → i < pos + n → i < dst.length →
      rdByte (copyBytes dst src pos n) i = rdByte src i
  | 0, i, _, h2, _ => by omega
  | n+1, i, h1, h2, h3 => by
    by_cases he : i = pos + n
    · subst he
      exact rdByte_wrByte_same _ _ _ (by rw [length_copyBytes]; exact h3)
    · rw [copyBytes, rdByte_wrByte_ne _ _ _ _ (by omega)]
      exact rdByte_copyBytes_in dst src pos n i h1 (by omega) h3

/-! ### Chain encodings in a byte buffer -/

/-- Head position of an encoded chain (0 for the empty chain.) -/
def nextPosOf : List (Nat × Nat) → Nat
  | [] => 0
  | (p, _) :: _ => p

/-- Position of the tail capability of a chain (0 for the empty chain). -/
def lastPosOf (l : List (Nat × Nat)) : Nat := ((l.getLast?).map Prod.fst).getD 0

/-- The buffer `virt` encodes the capability chain `l`: each capability's
type byte holds its type and its next byte points at the following
capability (0 at the tail). -/
def encodes (virt : List Nat) : List (Nat × Nat) → Prop
  | [] => True
  | (p, t) :: rest =>
      rdByte virt p = t ∧ rdByte virt (p + 1) = nextPosOf rest ∧ encodes virt rest

theorem nextPosOf_append_ne (l : List (Nat × Nat)) (x : Nat × Nat) (h : l ≠ []) :
    nextPosOf (l ++ [x]) = nextPosOf l := by
  cases l with
  | nil => exact absurd rfl h
  | cons a as => rfl

theorem lastPosOf_cons_cons (a b : Nat × Nat) (l : List (Nat × Nat)) :
    lastPosOf (a :: b :: l) = lastPosOf (b :: l) := by
  simp [lastPosOf, List.getLast?]

theorem lastPosOf_mem (l : List (Nat × Nat)) (h : l ≠ []) :
    ∃ q ∈ l, q.1 = lastPosOf l := by
  refine ⟨l.getLast h, List.getLast_mem h, ?_⟩
  simp [lastPosOf, List.getLast?_eq_getLast _ h]

theorem encodes_mono (virt virt' : List Nat) :
    ∀ l : List (Nat × Nat),
      (∀ q ∈ l, rdByte virt' q.1 = rdByte virt q.1
        ∧ rdByte virt' (q.1 + 1) = rdByte virt (q.1 + 1)) →
      encodes virt l → encodes virt' l
  | [], _, _ => trivial
  | (p, t) :: rest, hag, henc => by
    obtain ⟨h1, h2, h3⟩ := henc
    have hp := hag (p, t) (by simp)
    exact ⟨hp.1.trans h1, hp.2.trans h2,
      encodes_mono virt virt' rest (fun q hq => hag q (by simp [hq])) h3⟩

theorem findLastCap_spec (virt : List Nat) :
    ∀ (l : List (Nat × Nat)) (p t : Nat) (fuel : Nat),
      encodes virt ((p, t) :: l) → (∀ q ∈ (p, t) :: l, q.1 ≠ 0) →
      l.length < fuel →
      findLastCap virt fuel p = lastPosOf ((p, t) :: l)
  | [], p, t, fuel, henc, _, hf => by
    match fuel, hf with
    | f+1, _ =>
      have h2 : rdByte virt (p + 1) = 0 := henc.2.1
      simp [findLastCap, h2, lastPosOf]
  | (q1, q2) :: l', p, t, fuel, henc, hnz, hf => by
    match fuel, hf with
    | f+1, hf =>
      have h2 : rdByte virt (p + 1) = q1 := henc.2.1
      have hq1 : q1 ≠ 0 := hnz (q1, q2) (by simp)
      rw [lastPosOf_cons_cons]
      simp only [findLastCap, h2, if_neg hq1]
      exact findLastCap_spec virt l' q1 q2 f henc.2.2
        (fun q hq => hnz q (by simp at hq; rcases hq with h | h <;> simp [h]))
        (by simpa using Nat.lt_of_succ_lt_succ hf)

theorem walkChain_of_encodes (bs : List Nat) :
    ∀ (l : List (Nat × Nat)) (fuel : Nat),
      encodes bs l → (∀ q ∈ l, q.1 ≠ 0) → l.length ≤ fuel →
      walkChain bs fuel (nextPosOf l) = some l
  | [], fuel, _, _, _ => by cases fuel <;> simp [walkChain, nextPosOf]
  | (p, t) :: rest, fuel, henc, hnz, hf => by
    match fuel, hf with
    | f+1, hf =>
      have hp : p ≠ 0 := hnz (p, t) (by simp)
      have ih := walkChain_of_encodes bs rest f henc.2.2
        (fun q hq => hnz q (by simp [hq])) (by simpa using hf)
      show walkChain bs (f + 1) p = some ((p, t) :: rest)
      simp only [walkChain, if_neg hp, henc.2.1, ih, Option.map_some', henc.1]

/-! ### Status-bit arithmetic -/

theorem statusCapList_or_ne (x : Nat) : (x ||| PCI_STATUS_CAP_LIST) &&& PCI_STATUS_CAP_LIST ≠ 0 := by
  have hb : (x ||| 16).testBit 4 = true := by
    rw [Nat.testBit_or]
    simp [show Nat.testBit 16 4 = true from by decide]
  have h : (x ||| 16) &&& 2 ^ 4 = ((x ||| 16).testBit 4).toNat * 2 ^ 4 := Nat.and_two_pow _ 4
  rw [hb] at h
  norm_num at h
  show (x ||| 16) &&& 16 ≠ 0
  omega

theorem statusCapList_and_ef (x : Nat) : (x &&& 0xEF) &&& PCI_STATUS_CAP_LIST = 0 := by
  have hb : (x &&& 239).testBit 4 = false := by
    rw [Nat.testBit_and]
    simp [show Nat.testBit 239 4 = false from by decide]
  have h : (x &&& 239) &&& 2 ^ 4 = ((x &&& 239).testBit 4).toNat * 2 ^ 4 := Nat.and_two_pow _ 4
  rw [hb] at h
  norm_num at h
  show (x &&& 239) &&& 16 = 0
  exact h

end VfioPci

namespace VfioPci

/-! ### Capability footprints and the parse-loop invariant -/

/-- Capability types the parse loop copies into the virtual header. -/
def keepCap (archExp : Bool) (t : Nat) : Bool :=
  t == PCI_CAP_ID_MSIX || t == PCI_CAP_ID_MSI || (t == PCI_CAP_ID_EXP && archExp)

/-- Footprint of a capability of type `t` at `p` in the original header:
the number of bytes `vfio_pci_add_cap` copies for retained types, and just
the type/next bytes for the rest. -/
def capSpan (hdr : List Nat) (p t : Nat) : Nat :=
  if t = PCI_CAP_ID_MSIX then PCI_CAP_MSIX_SIZEOF
  else if t = PCI_CAP_ID_MSI then vfio_pci_msi_cap_size hdr p
  else if t = PCI_CAP_ID_EXP then PCI_CAP_EXP_RC_ENDPOINT_SIZEOF_V1
  else 2

theorem capSpan_ge_two (hdr : List Nat) (p t : Nat) : 2 ≤ capSpan hdr p t := by
  simp only [capSpan, vfio_pci_msi_cap_size, PCI_CAP_MSIX_SIZEOF,
    PCI_CAP_EXP_RC_ENDPOINT_SIZEOF_V1]
  repeat' split
  all_goals omega

theorem capSpan_keep_ge (hdr : List Nat) (p t : Nat)
    (hk : t = PCI_CAP_ID_MSIX ∨ t = PCI_CAP_ID_MSI ∨ t = PCI_CAP_ID_EXP) :
    10 ≤ capSpan hdr p t := by
  simp only [capSpan, vfio_pci_msi_cap_size, PCI_CAP_MSIX_SIZEOF,
    PCI_CAP_EXP_RC_ENDPOINT_SIZEOF_V1, PCI_CAP_ID_MSIX, PCI_CAP_ID_MSI, PCI_CAP_ID_EXP] at hk ⊢
  rcases hk with h | h | h <;> subst h <;> repeat' split
  all_goals omega

theorem keepCap_cases (archExp : Bool) (t : Nat) (h : keepCap archExp t = true) :
    t = PCI_CAP_ID_MSIX ∨ t = PCI_CAP_ID_MSI ∨ t = PCI_CAP_ID_EXP := by
  simp only [keepCap, Bool.or_eq_true, Bool.and_eq_true, beq_iff_eq] at h
  rcases h with (h | h) | ⟨h, _⟩ <;> simp [h]

theorem cap_size_eq_capSpan (h hdr0 : List Nat) (p t : Nat)
    (ht : rdByte h p = t)
    (hw2 : rdByte h (p + 2) = rdByte hdr0 (p + 2))
    (hw3 : rdByte h (p + 3) = rdByte hdr0 (p + 3))
    (hk : t = PCI_CAP_ID_MSIX ∨ t = PCI_CAP_ID_MSI ∨ t = PCI_CAP_ID_EXP) :
    vfio_pci_cap_size h p = capSpan hdr0 p t := by
  have hw : rdWord16 h (p + 2) = rdWord16 hdr0 (p + 2) := by
    simp only [rdWord16, hw2]
    have : p + 2 + 1 = p + 3 := by omega
    rw [this, hw3]
  simp only [vfio_pci_cap_size, capSpan, vfio_pci_msi_cap_size, ht, hw]
  rcases hk with hh | hh | hh <;> subst hh <;>
    simp [PCI_CAP_ID_MSIX, PCI_CAP_ID_MSI, PCI_CAP_ID_EXP]

/-- `encodes` is decidable, so a concrete device chain can be checked by
evaluation. -/
instance encodesDec (virt : List Nat) : ∀ l, Decidable (encodes virt l)
  | [] => .isTrue trivial
  | (p, t) :: rest =>
    letI := encodesDec virt rest
    decidable_of_iff
      (rdByte virt p = t ∧ rdByte virt (p + 1) = nextPosOf rest ∧ encodes virt rest) Iff.rfl

theorem encodes_append_right (virt : List Nat) :
    ∀ a b, encodes virt (a ++ b) → encodes virt b
  | [], _, h => h
  | (_, _) :: a, b, h => encodes_append_right virt a b h.2.2

/-- Extending an encoded chain by one capability at the tail: the new
buffer agrees with the old on the old capabilities' bytes, except that the
old tail's next byte now points at the new capability. -/
theorem encodes_snoc (virt virt' : List Nat) (p t : Nat) :
    ∀ l, encodes virt l →
      l.Pairwise (fun a b => a.1 ≠ b.1) →
      (∀ q ∈ l, rdByte virt' q.1 = rdByte virt q.1) →
      (l ≠ [] → rdByte virt' (lastPosOf l + 1) = p) →
      (∀ q ∈ l, q.1 ≠ lastPosOf l → rdByte virt' (q.1 + 1) = rdByte virt (q.1 + 1)) →
      rdByte virt' p = t → rdByte virt' (p + 1) = 0 →
      encodes virt' (l ++ [(p, t)])
  | [], _, _, _, _, _, htype, hnext => ⟨htype, hnext, trivial⟩
  | (q, s) :: rest, henc, hdist, hag, hlink, hoth, htype, hnext => by
    obtain ⟨h1, h2, h3⟩ := henc
    refine ⟨(hag (q, s) (by simp)).trans h1, ?_, ?_⟩
    · cases rest with
      | nil =>
        have := hlink (by simp)
        simpa [lastPosOf, List.getLast?, nextPosOf] using this
      | cons r rs =>
        have hqne : q ≠ lastPosOf ((q, s) :: r :: rs) := by
          rw [lastPosOf_cons_cons]
          obtain ⟨w, hw, hwp⟩ := lastPosOf_mem (r :: rs) (by simp)
          have : (q, s).1 ≠ w.1 := (List.pairwise_cons.mp hdist).1 w hw
          rw [← hwp]; exact this
        have := hoth (q, s) (by simp) hqne
        exact this.trans h2
    · refine encodes_snoc virt virt' p t rest h3 (List.pairwise_cons.mp hdist).2
        (fun w hw => hag w (by simp [hw])) ?_ ?_ htype hnext
      · intro hne
        have : lastPosOf ((q, s) :: rest) = lastPosOf rest := by
          cases rest with
          | nil => exact absurd rfl hne
          | cons r rs => exact lastPosOf_cons_cons _ _ _
        rw [← this]; exact hlink (by simp)
      · intro w hw hwne
        refine hoth w (by simp [hw]) ?_
        cases rest with
        | nil => simp at hw
        | cons r rs => rw [lastPosOf_cons_cons]; exact hwne

/-- The invariant maintained across `parseCapsLoop`: `hdr` is the
original header with only the status bit, the capabilities pointer and the
retained capabilities' next bytes rewritten, and `virt` encodes the chain
of retained capabilities in discovery order. -/
structure ParseInv (hdr0 : List Nat) (retained : List (Nat × Nat))
    (hdr virt : List Nat) : Prop where
  hlen : hdr.length = 256
  vlen : virt.length = 256
  agree : ∀ i, i ≠ 6 → i ≠ 0x34 → (∀ q ∈ retained, i ≠ q.1 + 1) →
    rdByte hdr i = rdByte hdr0 i
  zeroed : ∀ q ∈ retained, rdByte hdr (q.1 + 1) = 0
  capptr : rdByte hdr 0x34 = nextPosOf retained
  status : statusCapList hdr = 0 ↔ retained = []
  venc : encodes virt retained

end VfioPci

namespace VfioPci

theorem add_cap_eq_first (hdr virt : List Nat) (pos : Nat)
    (hcond : rdByte (wrByte hdr (pos + 1) 0) 0x34 = 0) :
    vfio_pci_add_cap hdr virt pos =
      (wrByte (wrByte (wrByte hdr (pos + 1) 0) 0x34 pos) 6
          (rdByte (wrByte (wrByte hdr (pos + 1) 0) 0x34 pos) 6 ||| PCI_STATUS_CAP_LIST),
       copyBytes virt
         (wrByte (wrByte (wrByte hdr (pos + 1) 0) 0x34 pos) 6
           (rdByte (wrByte (wrByte hdr (pos + 1) 0) 0x34 pos) 6 ||| PCI_STATUS_CAP_LIST))
         pos (vfio_pci_cap_size (wrByte hdr (pos + 1) 0) pos)) := by
  simp only [vfio_pci_add_cap]
  rw [if_pos hcond]

theorem add_cap_eq_rest (hdr virt : List Nat) (pos : Nat)
    (hcond : ¬ rdByte (wrByte hdr (pos + 1) 0) 0x34 = 0) :
    vfio_pci_add_cap hdr virt pos =
      (wrByte hdr (pos + 1) 0,
       copyBytes
         (wrByte virt (findLastCap virt 256 (rdByte (wrByte hdr (pos + 1) 0) 0x34) + 1) pos)
         (wrByte hdr (pos + 1) 0) pos (vfio_pci_cap_size (wrByte hdr (pos + 1) 0) pos)) := by
  simp only [vfio_pci_add_cap]
  rw [if_neg hcond]

/-- One `vfio_pci_add_cap` call preserves the parse invariant, appending
the new capability at the tail of the retained chain. -/
theorem add_cap_inv (hdr0 : List Nat) (retained : List (Nat × Nat))
    (hdr virt : List Nat) (pos t : Nat)
    (inv : ParseInv hdr0 retained hdr virt)
    (ht0 : rdByte hdr0 pos = t)
    (hk : t = PCI_CAP_ID_MSIX ∨ t = PCI_CAP_ID_MSI ∨ t = PCI_CAP_ID_EXP)
    (hp : 0x40 ≤ pos) (hps : pos + capSpan hdr0 pos t ≤ 256)
    (hretb : ∀ q ∈ retained, 0x40 ≤ q.1 ∧ q.1 + capSpan hdr0 q.1 q.2 ≤ 256)
    (hrdisj : ∀ q ∈ retained,
      q.1 + capSpan hdr0 q.1 q.2 ≤ pos ∨ pos + capSpan hdr0 pos t ≤ q.1)
    (hrpw : retained.Pairwise (fun a b =>
      a.1 + capSpan hdr0 a.1 a.2 ≤ b.1 ∨ b.1 + capSpan hdr0 b.1 b.2 ≤ a.1))
    (hrlen : retained.length < 256) :
    ParseInv hdr0 (retained ++ [(pos, t)])
      (vfio_pci_add_cap hdr virt pos).1 (vfio_pci_add_cap hdr virt pos).2 := by
  have hsp2 : 2 ≤ capSpan hdr0 pos t := capSpan_ge_two hdr0 pos t
  have hsp10 : 10 ≤ capSpan hdr0 pos t := capSpan_keep_ge hdr0 pos t hk
  have hlen := inv.hlen
  have hvlen := inv.vlen
  have hspan2 : ∀ q ∈ retained, 2 ≤ capSpan hdr0 q.1 q.2 := fun q _ => capSpan_ge_two _ _ _
  have hnotq1 : ∀ i, pos ≤ i → i < pos + capSpan hdr0 pos t →
      ∀ q ∈ retained, i ≠ q.1 + 1 := by
    intro i hi1 hi2 q hq
    rcases hrdisj q hq with h | h
    · have := hspan2 q hq; omega
    · omega
  have hagreeSpan : ∀ i, pos ≤ i → i < pos + capSpan hdr0 pos t →
      rdByte hdr i = rdByte hdr0 i := by
    intro i hi1 hi2
    exact inv.agree i (by omega) (by omega) (hnotq1 i hi1 hi2)
  have key34 : rdByte (wrByte hdr (pos + 1) 0) 0x34 = rdByte hdr 0x34 :=
    rdByte_wrByte_ne _ _ _ _ (by omega)
  have key6 : rdByte (wrByte hdr (pos + 1) 0) 6 = rdByte hdr 6 :=
    rdByte_wrByte_ne _ _ _ _ (by omega)
  have keyT : rdByte (wrByte hdr (pos + 1) 0) pos = t := by
    rw [rdByte_wrByte_ne _ _ _ _ (by omega)]
    rw [hagreeSpan pos (le_refl _) (by omega)]
    exact ht0
  have keyN : rdByte (wrByte hdr (pos + 1) 0) (pos + 1) = 0 :=
    rdByte_wrByte_same _ _ _ (by omega)
  have keySize : vfio_pci_cap_size (wrByte hdr (pos + 1) 0) pos = capSpan hdr0 pos t := by
    refine cap_size_eq_capSpan _ _ _ _ keyT ?_ ?_ hk
    · rw [rdByte_wrByte_ne _ _ _ _ (by omega)]
      exact hagreeSpan (pos + 2) (by omega) (by omega)
    · rw [rdByte_wrByte_ne _ _ _ _ (by omega)]
      exact hagreeSpan (pos + 3) (by omega) (by omega)
  rcases retained with _ | ⟨r, rs⟩
  · -- first capability: the head pointer is still zero
    have hcp : rdByte hdr 0x34 = 0 := inv.capptr
    have hcond : rdByte (wrByte hdr (pos + 1) 0) 0x34 = 0 := by rw [key34]; exact hcp
    rw [add_cap_eq_first hdr virt pos hcond, keySize]
    refine ⟨?_, ?_, ?_, ?_, ?_, ?_, ?_⟩
    · simp [length_wrByte, hlen]
    · simp [length_copyBytes, hvlen]
    · intro i hi6 hi34 hq1
      have hip : i ≠ pos + 1 := hq1 (pos, t) (by simp)
      rw [rdByte_wrByte_ne _ _ _ _ (Ne.symm hi6), rdByte_wrByte_ne _ _ _ _ (Ne.symm hi34),
        rdByte_wrByte_ne _ _ _ _ (Ne.symm hip)]
      exact inv.agree i hi6 hi34 (by simp)
    · intro q hq
      simp only [List.nil_append, List.mem_singleton] at hq
      subst hq
      rw [rdByte_wrByte_ne _ _ _ _ (by omega), rdByte_wrByte_ne _ _ _ _ (by omega)]
      exact keyN
    · rw [rdByte_wrByte_ne _ _ _ _ (by omega)]
      rw [rdByte_wrByte_same _ _ _ (by rw [length_wrByte]; omega)]
      rfl
    · refine iff_of_false ?_ (by simp)
      have hb6 : rdByte (wrByte (wrByte (wrByte hdr (pos + 1) 0) 0x34 pos) 6
          (rdByte (wrByte (wrByte hdr (pos + 1) 0) 0x34 pos) 6 ||| PCI_STATUS_CAP_LIST)) 6
          = rdByte (wrByte (wrByte hdr (pos + 1) 0) 0x34 pos) 6 ||| PCI_STATUS_CAP_LIST :=
        rdByte_wrByte_same _ _ _ (by simp [length_wrByte]; omega)
      simp only [statusCapList, hb6]
      exact statusCapList_or_ne _
    · refine ⟨?_, ?_, trivial⟩
      · rw [rdByte_copyBytes_in _ _ _ _ _ (le_refl _) (by omega)
          (by omega)]
        rw [rdByte_wrByte_ne _ _ _ _ (by omega), rdByte_wrByte_ne _ _ _ _ (by omega)]
        exact keyT
      · rw [rdByte_copyBytes_in _ _ _ _ _ (by omega) (by omega)
          (by omega)]
        rw [rdByte_wrByte_ne _ _ _ _ (by omega), rdByte_wrByte_ne _ _ _ _ (by omega)]
        exact keyN
  · -- later capability: link at the tail of the virtual chain
    have hcp : rdByte hdr 0x34 = r.1 := inv.capptr
    have hr1 : 0x40 ≤ r.1 := (hretb r (by simp)).1
    have hcond : ¬ rdByte (wrByte hdr (pos + 1) 0) 0x34 = 0 := by
      rw [key34, hcp]; omega
    have hK : rdByte (wrByte hdr (pos + 1) 0) 0x34 = r.1 := by rw [key34]; exact hcp
    have hrslen : rs.length < 256 := by
      have := hrlen; simp only [List.length_cons] at this; omega
    have hlast : findLastCap virt 256 r.1 = lastPosOf (r :: rs) := by
      refine findLastCap_spec virt rs r.1 r.2 256 inv.venc ?_ hrslen
      intro q hq
      have := (hretb q hq).1
      omega
    obtain ⟨qL, hqLmem, hqLpos⟩ := lastPosOf_mem (r :: rs) (by simp)
    have hqLb := hretb qL hqLmem
    have hqLs2 := hspan2 qL hqLmem
    have hqLdisj := hrdisj qL hqLmem
    have hlp1 : lastPosOf (r :: rs) + 1 < 256 := by omega
    have hlpout : lastPosOf (r :: rs) + 1 < pos
        ∨ pos + capSpan hdr0 pos t ≤ lastPosOf (r :: rs) + 1 := by
      rcases hqLdisj with h | h
      · left; omega
      · right; omega
    rw [add_cap_eq_rest hdr virt pos hcond, hK, hlast, keySize]
    have hsym : Symmetric (fun a b : Nat × Nat =>
        a.1 + capSpan hdr0 a.1 a.2 ≤ b.1 ∨ b.1 + capSpan hdr0 b.1 b.2 ≤ a.1) :=
      fun _ _ h => h.symm
    have hqne_lp1 : ∀ q ∈ r :: rs, lastPosOf (r :: rs) + 1 ≠ q.1 := by
      intro q hq
      by_cases hql : q.1 = lastPosOf (r :: rs)
      · omega
      · have hne : q ≠ qL := fun he => hql (by rw [he, hqLpos])
        have hd := List.Pairwise.forall hsym hrpw hq hqLmem hne
        have := hspan2 q hq
        rcases hd with h | h <;> omega
    have hqout : ∀ q ∈ r :: rs, q.1 < pos ∨ pos + capSpan hdr0 pos t ≤ q.1 := by
      intro q hq
      rcases hrdisj q hq with h | h
      · left; have := hspan2 q hq; omega
      · right; omega
    refine ⟨?_, ?_, ?_, ?_, ?_, ?_, ?_⟩
    · simp [length_wrByte, hlen]
    · simp [length_copyBytes, length_wrByte, hvlen]
    · intro i hi6 hi34 hq1
      have hip : i ≠ pos + 1 := hq1 (pos, t) (by simp)
      rw [rdByte_wrByte_ne _ _ _ _ (Ne.symm hip)]
      exact inv.agree i hi6 hi34 (fun q hq => hq1 q (List.mem_append.mpr (Or.inl hq)))
    · intro q hq
      rcases List.mem_append.mp hq with hq | hq
      · have hqp : pos ≠ q.1 := by
          rcases hrdisj q hq with h | h
          · have := hspan2 q hq; omega
          · omega
        rw [rdByte_wrByte_ne _ _ _ _ (by omega)]
        exact inv.zeroed q hq
      · simp only [List.mem_singleton] at hq
        subst hq
        exact keyN
    · exact hK
    · have hs : statusCapList (wrByte hdr (pos + 1) 0) = statusCapList hdr := by
        simp only [statusCapList, key6]
      rw [hs]
      refine iff_of_false ?_ (by simp)
      intro h0
      exact absurd (inv.status.mp h0) (by simp)
    · refine encodes_snoc virt _ pos t (r :: rs) inv.venc
        (hrpw.imp ?_) ?_ ?_ ?_ ?_ ?_
      · intro a b h
        have ha := capSpan_ge_two hdr0 a.1 a.2
        have hb := capSpan_ge_two hdr0 b.1 b.2
        rcases h with h | h <;> omega
      · intro q hq
        have hq2 := hspan2 q hq
        rcases hqout q hq with h | h
        · rw [rdByte_copyBytes_out _ _ _ _ _ (Or.inl h)]
          exact rdByte_wrByte_ne _ _ _ _ (hqne_lp1 q hq)
        · rw [rdByte_copyBytes_out _ _ _ _ _ (Or.inr h)]
          exact rdByte_wrByte_ne _ _ _ _ (hqne_lp1 q hq)
      · intro _
        rw [rdByte_copyBytes_out _ _ _ _ _ hlpout]
        exact rdByte_wrByte_same _ _ _ (by omega)
      · intro q hq hqlp
        have hq2 := hspan2 q hq
        have hout1 : q.1 + 1 < pos ∨ pos + capSpan hdr0 pos t ≤ q.1 + 1 := by
          rcases hrdisj q hq with h | h
          · left; omega
          · right; omega
        rw [rdByte_copyBytes_out _ _ _ _ _ hout1]
        exact rdByte_wrByte_ne _ _ _ _ (by omega)
      · rw [rdByte_copyBytes_in _ _ _ _ _ (le_refl _) (by omega)
          (by simp [length_wrByte]; omega)]
        exact keyT
      · rw [rdByte_copyBytes_in _ _ _ _ _ (by omega) (by omega)
          (by simp [length_wrByte]; omega)]
        exact keyN

end VfioPci

namespace VfioPci

/-- The parse loop maintains the invariant over the whole device chain and
terminates when given at least as much fuel as there are capabilities. -/
theorem parseCapsLoop_inv (hdr0 : List Nat) (archExp : Bool) (caps : List (Nat × Nat))
    (henc0 : encodes hdr0 caps)
    (hb : ∀ q ∈ caps, 0x40 ≤ q.1 ∧ q.1 + capSpan hdr0 q.1 q.2 ≤ 256)
    (hdisj : caps.Pairwise (fun a b =>
      a.1 + capSpan hdr0 a.1 a.2 ≤ b.1 ∨ b.1 + capSpan hdr0 b.1 b.2 ≤ a.1))
    (hnum : caps.length < 256) :
    ∀ (todo done : List (Nat × Nat)) (st : ParseState) (fuel : Nat),
      caps = done ++ todo →
      ParseInv hdr0 (done.filter (fun q => keepCap archExp q.2)) st.hdr st.virt →
      todo.length ≤ fuel →
      ∃ st', parseCapsLoop archExp fuel st (nextPosOf todo) = some st' ∧
        ParseInv hdr0 (caps.filter (fun q => keepCap archExp q.2)) st'.hdr st'.virt
  | [], done, st, fuel, hsplit, hinv, _ => by
    refine ⟨st, ?_, ?_⟩
    · cases fuel <;> simp [parseCapsLoop, nextPosOf]
    · rw [hsplit, List.append_nil]
      exact hinv
  | (pos, t) :: rest, done, st, fuel, hf0, hinv, hf => by
    match fuel, hf with
    | f+1, hf =>
      have hsplit := hf0
      have hmem : (pos, t) ∈ caps := by rw [hsplit]; simp
      have hbp1 : 0x40 ≤ pos := (hb (pos, t) hmem).1
      have hbp2 : pos + capSpan hdr0 pos t ≤ 256 := (hb (pos, t) hmem).2
      have hsp2 : 2 ≤ capSpan hdr0 pos t := capSpan_ge_two hdr0 pos t
      have hpos0 : ¬ pos = 0 := by omega
      have hdisj' := hdisj
      rw [hsplit] at hdisj'
      have hpairs := List.pairwise_append.mp hdisj'
      have hcross : ∀ q ∈ done,
          q.1 + capSpan hdr0 q.1 q.2 ≤ pos ∨ pos + capSpan hdr0 pos t ≤ q.1 :=
        fun q hq => hpairs.2.2 q hq (pos, t) (by simp)
      have henc' := henc0
      rw [hsplit] at henc'
      have hencT := encodes_append_right hdr0 done _ henc'
      have ht0 : rdByte hdr0 pos = t := hencT.1
      have hnx0 : rdByte hdr0 (pos + 1) = nextPosOf rest := hencT.2.1
      have hRmem : ∀ q ∈ done.filter (fun q => keepCap archExp q.2), q ∈ done :=
        fun q hq => List.mem_of_mem_filter hq
      have hRdisj : ∀ q ∈ done.filter (fun q => keepCap archExp q.2),
          q.1 + capSpan hdr0 q.1 q.2 ≤ pos ∨ pos + capSpan hdr0 pos t ≤ q.1 :=
        fun q hq => hcross q (hRmem q hq)
      have hsp2R : ∀ q ∈ done.filter (fun q => keepCap archExp q.2),
          2 ≤ capSpan hdr0 q.1 q.2 :=
        fun q _ => capSpan_ge_two _ _ _
      have htB : rdByte st.hdr pos = t := by
        have ha : ∀ q ∈ done.filter (fun q => keepCap archExp q.2), pos ≠ q.1 + 1 := by
          intro q hq
          rcases hRdisj q hq with h | h
          · have := hsp2R q hq; omega
          · omega
        rw [hinv.agree pos (by omega) (by omega) ha]
        exact ht0
      have hnB : rdByte st.hdr (pos + 1) = nextPosOf rest := by
        have ha : ∀ q ∈ done.filter (fun q => keepCap archExp q.2), pos + 1 ≠ q.1 + 1 := by
          intro q hq
          rcases hRdisj q hq with h | h
          · have := hsp2R q hq; omega
          · omega
        rw [hinv.agree (pos + 1) (by omega) (by omega) ha]
        exact hnx0
      have hretb : ∀ q ∈ done.filter (fun q => keepCap archExp q.2),
          0x40 ≤ q.1 ∧ q.1 + capSpan hdr0 q.1 q.2 ≤ 256 :=
        fun q hq => hb q (by rw [hsplit]; exact List.mem_append.mpr (Or.inl (hRmem q hq)))
      have hrpw : (done.filter (fun q => keepCap archExp q.2)).Pairwise (fun a b =>
          a.1 + capSpan hdr0 a.1 a.2 ≤ b.1 ∨ b.1 + capSpan hdr0 b.1 b.2 ≤ a.1) :=
        (hpairs.1).sublist (List.filter_sublist done)
      have hrlen : (done.filter (fun q => keepCap archExp q.2)).length < 256 := by
        have h1 := List.length_filter_le (fun q => keepCap archExp q.2) done
        have h2 : caps.length = done.length + ((pos, t) :: rest).length := by
          rw [hsplit]; simp
        simp only [List.length_cons] at h2
        omega
      have hsplit' : caps = (done ++ [(pos, t)]) ++ rest := by
        rw [hsplit]; simp
      have hf' : rest.length ≤ f := by
        simp only [List.length_cons] at hf; omega
      show ∃ st', parseCapsLoop archExp (f + 1) st pos = some st' ∧
        ParseInv hdr0 (caps.filter (fun q => keepCap archExp q.2)) st'.hdr st'.virt
      simp only [parseCapsLoop]
      rw [if_neg hpos0, htB, hnB]
      by_cases h17 : t = PCI_CAP_ID_MSIX
      · rw [if_pos h17]
        have hkeep : keepCap archExp t = true := by
          simp [keepCap, h17, PCI_CAP_ID_MSIX]
        have hfil : (done ++ [(pos, t)]).filter (fun q => keepCap archExp q.2)
            = done.filter (fun q => keepCap archExp q.2) ++ [(pos, t)] := by
          rw [List.filter_append]; simp [hkeep]
        have hinv' : ParseInv hdr0
            ((done ++ [(pos, t)]).filter (fun q => keepCap archExp q.2))
            (vfio_pci_add_cap st.hdr st.virt pos).1
            (vfio_pci_add_cap st.hdr st.virt pos).2 := by
          rw [hfil]
          exact add_cap_inv hdr0 _ st.hdr st.virt pos t hinv ht0
            (keepCap_cases archExp t hkeep) hbp1 hbp2 hretb hRdisj hrpw hrlen
        exact parseCapsLoop_inv hdr0 archExp caps henc0 hb hdisj hnum rest
          (done ++ [(pos, t)]) _ f hsplit' hinv' hf'
      · rw [if_neg h17]
        by_cases h5 : t = PCI_CAP_ID_MSI
        · rw [if_pos h5]
          have hkeep : keepCap archExp t = true := by
            simp [keepCap, h5, PCI_CAP_ID_MSI]
          have hfil : (done ++ [(pos, t)]).filter (fun q => keepCap archExp q.2)
              = done.filter (fun q => keepCap archExp q.2) ++ [(pos, t)] := by
            rw [List.filter_append]; simp [hkeep]
          have hinv' : ParseInv hdr0
              ((done ++ [(pos, t)]).filter (fun q => keepCap archExp q.2))
              (vfio_pci_add_cap st.hdr st.virt pos).1
              (vfio_pci_add_cap st.hdr st.virt pos).2 := by
            rw [hfil]
            exact add_cap_inv hdr0 _ st.hdr st.virt pos t hinv ht0
              (keepCap_cases archExp t hkeep) hbp1 hbp2 hretb hRdisj hrpw hrlen
          exact parseCapsLoop_inv hdr0 archExp caps henc0 hb hdisj hnum rest
            (done ++ [(pos, t)]) _ f hsplit' hinv' hf'
        · rw [if_neg h5]
          by_cases h16 : t = PCI_CAP_ID_EXP
          · rw [if_pos h16]
            by_cases hA : archExp = true
            · rw [if_pos hA]
              have hkeep : keepCap archExp t = true := by
                simp [keepCap, h16, hA, PCI_CAP_ID_EXP]
              have hfil : (done ++ [(pos, t)]).filter (fun q => keepCap archExp q.2)
                  = done.filter (fun q => keepCap archExp q.2) ++ [(pos, t)] := by
                rw [List.filter_append]; simp [hkeep]
              have hinv' : ParseInv hdr0
                  ((done ++ [(pos, t)]).filter (fun q => keepCap archExp q.2))
                  (vfio_pci_add_cap st.hdr st.virt pos).1
                  (vfio_pci_add_cap st.hdr st.virt pos).2 := by
                rw [hfil]
                exact add_cap_inv hdr0 _ st.hdr st.virt pos t hinv ht0
                  (keepCap_cases archExp t hkeep) hbp1 hbp2 hretb hRdisj hrpw hrlen
              exact parseCapsLoop_inv hdr0 archExp caps henc0 hb hdisj hnum rest
                (done ++ [(pos, t)]) _ f hsplit' hinv' hf'
            · rw [if_neg hA]
              have hAf : archExp = false := by
                revert hA; cases archExp <;> simp
              have hkeepf : keepCap archExp t = false := by
                simp [keepCap, h16, hAf, PCI_CAP_ID_EXP, PCI_CAP_ID_MSIX, PCI_CAP_ID_MSI]
              have hfil : (done ++ [(pos, t)]).filter (fun q => keepCap archExp q.2)
                  = done.filter (fun q => keepCap archExp q.2) := by
                rw [List.filter_append]; simp [hkeepf]
              have hinv' : ParseInv hdr0
                  ((done ++ [(pos, t)]).filter (fun q => keepCap archExp q.2))
                  st.hdr st.virt := by
                rw [hfil]; exact hinv
              exact parseCapsLoop_inv hdr0 archExp caps henc0 hb hdisj hnum rest
                (done ++ [(pos, t)]) st f hsplit' hinv' hf'
          · rw [if_neg h16]
            have hkeepf : keepCap archExp t = false := by
              simp [keepCap, h17, h5, h16]
            have hfil : (done ++ [(pos, t)]).filter (fun q => keepCap archExp q.2)
                = done.filter (fun q => keepCap archExp q.2) := by
              rw [List.filter_append]; simp [hkeepf]
            have hinv' : ParseInv hdr0
                ((done ++ [(pos, t)]).filter (fun q => keepCap archExp q.2))
                st.hdr st.virt := by
              rw [hfil]; exact hinv
            exact parseCapsLoop_inv hdr0 archExp caps henc0 hb hdisj hnum rest
              (done ++ [(pos, t)]) st f hsplit' hinv' hf'

end VfioPci

namespace VfioPci

theorem rdByte_assemble_lo (a b : List Nat) (i : Nat) (ha : a.length = 256)
    (hi : i < 0x40) :
    rdByte (a.take 0x40 ++ (b.drop 0x40).take 0xC0) i = rdByte a i := by
  simp only [rdByte, List.getD_eq_getElem?_getD]
  have hlt : i < (a.take 0x40).length := by
    rw [List.length_take_of_le (by omega)]; omega
  rw [List.getElem?_append, if_pos hlt, List.getElem?_take, if_pos hi]

theorem rdByte_assemble_hi (a b : List Nat) (i : Nat) (ha : a.length = 256)
    (hb : b.length = 256) (h1 : 0x40 ≤ i) (h2 : i < 256) :
    rdByte (a.take 0x40 ++ (b.drop 0x40).take 0xC0) i = rdByte b i := by
  simp only [rdByte, List.getD_eq_getElem?_getD]
  have hlen : (a.take 0x40).length = 0x40 := List.length_take_of_le (by omega)
  rw [List.getElem?_append, if_neg (by omega), hlen,
    List.getElem?_take, if_pos (by omega), List.getElem?_drop]
  have : 0x40 + (i - 0x40) = i := by omega
  rw [this]

set_option maxHeartbeats 1000000 in
/-- C8 (amended): for a device that reports `PCI_STATUS_CAP_LIST` and whose
capability chain is well formed (each record at offset ≥ 0x40, the records'
footprints in bounds and pairwise disjoint), `vfio_pci_parse_caps` succeeds
and the resulting virtual header satisfies the invariant: its status
CAP_LIST bit is set iff its capabilities pointer is non-zero, and walking
the virtual chain terminates, visiting only MSI, MSI-X or PCI-Express
capabilities.  (Without the CAP_LIST premise the invariant fails; see the
counterexample.) -/
theorem parse_caps_amended (hdr0 : List Nat) (archExp : Bool) (caps : List (Nat × Nat))
    (hlen : hdr0.length = 256)
    (hstatus : ¬ statusCapList hdr0 = 0)
    (hentry : rdByte hdr0 0x34 &&& 0xFC = nextPosOf caps)
    (henc : encodes hdr0 caps)
    (hbounds : ∀ q ∈ caps, 0x40 ≤ q.1 ∧ q.1 + capSpan hdr0 q.1 q.2 ≤ 256)
    (hdisj : caps.Pairwise (fun a b =>
      a.1 + capSpan hdr0 a.1 a.2 ≤ b.1 ∨ b.1 + capSpan hdr0 b.1 b.2 ≤ a.1))
    (hnum : caps.length < 256) :
    ∃ st, vfio_pci_parse_caps hdr0 archExp 256 = some st ∧
      (¬ statusCapList st.hdr = 0 ↔ ¬ rdByte st.hdr 0x34 = 0) ∧
      ∃ visited, walkChain st.hdr 256 (rdByte st.hdr 0x34) = some visited ∧
        ∀ v ∈ visited,
          v.2 = PCI_CAP_ID_MSI ∨ v.2 = PCI_CAP_ID_MSIX ∨ v.2 = PCI_CAP_ID_EXP := by
  have hinit : ParseInv hdr0
      (([] : List (Nat × Nat)).filter (fun q => keepCap archExp q.2))
      (wrByte (wrByte hdr0 6 (rdByte hdr0 6 &&& 0xEF)) 0x34 0) (List.replicate 256 0) := by
    refine ⟨?_, ?_, ?_, ?_, ?_, ?_, trivial⟩
    · simp [length_wrByte, hlen]
    · exact List.length_replicate 256 0
    · intro i hi6 hi34 _
      rw [rdByte_wrByte_ne _ _ _ _ (Ne.symm hi34), rdByte_wrByte_ne _ _ _ _ (Ne.symm hi6)]
    · intro q hq
      simp at hq
    · rw [rdByte_wrByte_same _ _ _ (by rw [length_wrByte]; omega)]
      rfl
    · refine iff_of_true ?_ (by simp)
      have h6 : rdByte (wrByte (wrByte hdr0 6 (rdByte hdr0 6 &&& 0xEF)) 0x34 0) 6
          = rdByte hdr0 6 &&& 0xEF := by
        rw [rdByte_wrByte_ne _ _ _ _ (by omega)]
        exact rdByte_wrByte_same _ _ _ (by omega)
      simp only [statusCapList, h6]
      exact statusCapList_and_ef _
  obtain ⟨st', hrun, hinv'⟩ := parseCapsLoop_inv hdr0 archExp caps henc hbounds hdisj hnum
    caps []
    ⟨wrByte (wrByte hdr0 6 (rdByte hdr0 6 &&& 0xEF)) 0x34 0, List.replicate 256 0, 0, 0, 0⟩
    256 (by simp) hinit (by omega)
  have hparse : vfio_pci_parse_caps hdr0 archExp 256 =
      some ⟨st'.hdr.take 0x40 ++ (st'.virt.drop 0x40).take 0xC0, st'.virt,
            st'.irq_modes, st'.msi_pos, st'.msix_pos⟩ := by
    simp only [vfio_pci_parse_caps]
    rw [if_neg hstatus, hentry, hrun]
  have hF6 : rdByte (st'.hdr.take 0x40 ++ (st'.virt.drop 0x40).take 0xC0) 6
      = rdByte st'.hdr 6 :=
    rdByte_assemble_lo st'.hdr st'.virt 6 hinv'.hlen (by omega)
  have hF34 : rdByte (st'.hdr.take 0x40 ++ (st'.virt.drop 0x40).take 0xC0) 0x34
      = rdByte st'.hdr 0x34 :=
    rdByte_assemble_lo st'.hdr st'.virt 0x34 hinv'.hlen (by omega)
  have hRb : ∀ q ∈ caps.filter (fun q => keepCap archExp q.2),
      0x40 ≤ q.1 ∧ q.1 + capSpan hdr0 q.1 q.2 ≤ 256 :=
    fun q hq => hbounds q (List.mem_of_mem_filter hq)
  have hcpz : rdByte st'.hdr 0x34 = 0 ↔ caps.filter (fun q => keepCap archExp q.2) = [] := by
    rw [hinv'.capptr]
    cases hfc : caps.filter (fun q => keepCap archExp q.2) with
    | nil => simp [nextPosOf]
    | cons r rs =>
      have hr : 0x40 ≤ r.1 := (hRb r (by rw [hfc]; simp)).1
      refine iff_of_false ?_ (by simp)
      simp only [nextPosOf]
      omega
  have hencF : encodes (st'.hdr.take 0x40 ++ (st'.virt.drop 0x40).take 0xC0)
      (caps.filter (fun q => keepCap archExp q.2)) := by
    refine encodes_mono st'.virt _ _ ?_ hinv'.venc
    intro q hq
    have hqb := hRb q hq
    have hq2 : 2 ≤ capSpan hdr0 q.1 q.2 := capSpan_ge_two _ _ _
    exact ⟨rdByte_assemble_hi st'.hdr st'.virt q.1 hinv'.hlen hinv'.vlen (by omega) (by omega),
      rdByte_assemble_hi st'.hdr st'.virt (q.1 + 1) hinv'.hlen hinv'.vlen (by omega) (by omega)⟩
  have hwalk : walkChain (st'.hdr.take 0x40 ++ (st'.virt.drop 0x40).take 0xC0) 256
      (nextPosOf (caps.filter (fun q => keepCap archExp q.2)))
      = some (caps.filter (fun q => keepCap archExp q.2)) := by
    refine walkChain_of_encodes _ _ 256 hencF ?_ ?_
    · intro q hq
      have := (hRb q hq).1
      omega
    · have := List.length_filter_le (fun q => keepCap archExp q.2) caps
      omega
  refine ⟨⟨st'.hdr.take 0x40 ++ (st'.virt.drop 0x40).take 0xC0, st'.virt,
    st'.irq_modes, st'.msi_pos, st'.msix_pos⟩, hparse, ?_, ?_⟩
  · show ¬ statusCapList (st'.hdr.take 0x40 ++ (st'.virt.drop 0x40).take 0xC0) = 0 ↔ _
    have hsF : statusCapList (st'.hdr.take 0x40 ++ (st'.virt.drop 0x40).take 0xC0)
        = statusCapList st'.hdr := by
      simp only [statusCapList, hF6]
    rw [hsF, hF34]
    constructor
    · intro h1 h2
      exact h1 (hinv'.status.mpr (hcpz.mp h2))
    · intro h1 h2
      exact h1 (hcpz.mpr (hinv'.status.mp h2))
  · refine ⟨caps.filter (fun q => keepCap archExp q.2), ?_, ?_⟩
    · show walkChain _ 256 (rdByte (st'.hdr.take 0x40 ++ (st'.virt.drop 0x40).take 0xC0) 0x34)
        = _
      rw [hF34, hinv'.capptr]
      exact hwalk
    · intro v hv
      have hk := (List.mem_filter.mp hv).2
      rcases keepCap_cases archExp v.2 (by simpa using hk) with h | h | h
      · exact Or.inr (Or.inl h)
      · exact Or.inl h
      · exact Or.inr (Or.inr h)

/-- A well-formed two-capability device header: CAP_LIST set, an MSI
capability at 0x40 linked to an MSI-X capability at 0x50. -/
def c8goodHdr : List Nat :=
  wrByte (wrByte (wrByte (wrByte (wrByte (wrByte (List.replicate 256 0)
    6 0x10) 0x34 0x40) 0x40 0x05) 0x41 0x50) 0x50 0x11) 0x51 0

def c8caps : List (Nat × Nat) := [(0x40, 0x05), (0x50, 0x11)]

set_option maxRecDepth 8000 in
theorem parse_caps_amended_witness :
    ∃ st, vfio_pci_parse_caps c8goodHdr true 256 = some st ∧
      (¬ statusCapList st.hdr = 0 ↔ ¬ rdByte st.hdr 0x34 = 0) ∧
      ∃ visited, walkChain st.hdr 256 (rdByte st.hdr 0x34) = some visited ∧
        ∀ v ∈ visited,
          v.2 = PCI_CAP_ID_MSI ∨ v.2 = PCI_CAP_ID_MSIX ∨ v.2 = PCI_CAP_ID_EXP :=
  parse_caps_amended c8goodHdr true c8caps (by decide) (by decide) (by decide)
    (by decide) (by decide) (by decide) (by decide)

end VfioPci

namespace VfioPci

/-! ### Claim C3: the per-vector mask/route invariant -/

/-- Every installed irqfd route uses ids the host has actually allocated:
non-negative and below the allocation counters. -/
def HostFresh (h : Host) : Prop :=
  ∀ p ∈ h.irqfds, 0 ≤ p.1 ∧ p.1 < (h.nextGsi : Int) ∧ 0 ≤ p.2 ∧ p.2 < (h.nextFd : Int)

/-- The C3 invariant for one vector: the host MASKED bit is set exactly when
no irqfd route is installed for the vector's (gsi, eventfd); an unmasked
vector holds live ids; and the ids are below the host's counters. -/
def EntryInv (h : Host) (e : MsiEntry) : Prop :=
  (msi_is_masked e.host_state = true ↔ (e.gsi, e.eventfd) ∉ h.irqfds)
  ∧ (msi_is_masked e.host_state = false → 0 ≤ e.gsi ∧ 0 ≤ e.eventfd)
  ∧ e.gsi < (h.nextGsi : Int) ∧ e.eventfd < (h.nextFd : Int)

instance (h : Host) : Decidable (HostFresh h) := by unfold HostFresh; infer_instance

instance (h : Host) (e : MsiEntry) : Decidable (EntryInv h e) := by
  unfold EntryInv; infer_instance

/-- A pair with a negative component is never an installed route of a fresh
host. -/
theorem not_mem_irqfds_neg (h : Host) (hf : HostFresh h) (g f : Int)
    (hneg : g < 0 ∨ f < 0) : (g, f) ∉ h.irqfds := by
  intro hm
  have := hf (g, f) hm
  simp only at this
  omega

/-- A pair whose component equals the allocation counter is never an
installed route of a fresh host. -/
theorem not_mem_irqfds_fresh (h : Host) (hf : HostFresh h) (g f : Int)
    (hfresh : (h.nextGsi : Int) ≤ g ∨ (h.nextFd : Int) ≤ f) : (g, f) ∉ h.irqfds := by
  intro hm
  have := hf (g, f) hm
  simp only at this
  omega

end VfioPci

namespace VfioPci


set_option maxHeartbeats 3200000 in
/-- `vfio_pci_update_msi_entry` preserves the C3 invariant: on every path
(lazy eventfd allocation, route allocation or refresh, irqfd install or
removal, and each failure return) the updated vector still has its host
MASKED bit set exactly when no irqfd route is installed for its ids, and
the host's routes stay fresh. -/
theorem update_msi_entry_inv (h : Host) (e : MsiEntry)
    (hf : HostFresh h) (hi : EntryInv h e) :
    EntryInv (vfio_pci_update_msi_entry h e).2.2 (vfio_pci_update_msi_entry h e).2.1
    ∧ HostFresh (vfio_pci_update_msi_entry h e).2.2 := by
  have hcast : ∀ n : Nat, ¬((n : Int) < 0) := by intro n; omega
  obtain ⟨hiA, hiB, hiC, hiD⟩ := hi
  unfold EntryInv HostFresh
  by_cases h1 : e.eventfd < 0
  · by_cases h2 : h.failEventfd = true
    · -- eventfd allocation fails
      have hE : (vfio_pci_update_msi_entry h e).2.1 = {e with eventfd := -1} := by
        simp [vfio_pci_update_msi_entry, host_eventfd, Host.record, h1, h2]
      have hI : (vfio_pci_update_msi_entry h e).2.2.irqfds = h.irqfds := by
        simp [vfio_pci_update_msi_entry, host_eventfd, Host.record, h1, h2]
      have hG : (vfio_pci_update_msi_entry h e).2.2.nextGsi = h.nextGsi := by
        simp [vfio_pci_update_msi_entry, host_eventfd, Host.record, h1, h2]
      have hN : (vfio_pci_update_msi_entry h e).2.2.nextFd = h.nextFd := by
        simp [vfio_pci_update_msi_entry, host_eventfd, Host.record, h1, h2]
      simp only [hE, hI, hG, hN]
      refine ⟨⟨?_, ?_, ?_, ?_⟩, hf⟩
      · rcases hm : msi_is_masked e.host_state with _ | _
        · exact absurd (hiB hm).2 (by omega)
        · exact iff_of_true rfl (not_mem_irqfds_neg h hf _ _ (Or.inr (by omega)))
      · intro hm
        exact absurd (hiB hm).2 (by omega)
      · exact hiC
      · omega
    · -- fresh eventfd
      by_cases h3 : e.gsi < 0
      · by_cases h4 : h.failRoute = true
        · -- route allocation fails
          have hE : (vfio_pci_update_msi_entry h e).2.1 = {e with eventfd := (h.nextFd : Int)} := by
            simp [vfio_pci_update_msi_entry, host_eventfd, host_add_msix_route, Host.record, h1, h2, h3, h4, hcast]
          have hI : (vfio_pci_update_msi_entry h e).2.2.irqfds = h.irqfds := by
            simp [vfio_pci_update_msi_entry, host_eventfd, host_add_msix_route, Host.record, h1, h2, h3, h4, hcast]
          have hG : (vfio_pci_update_msi_entry h e).2.2.nextGsi = h.nextGsi := by
            simp [vfio_pci_update_msi_entry, host_eventfd, host_add_msix_route, Host.record, h1, h2, h3, h4, hcast]
          have hN : (vfio_pci_update_msi_entry h e).2.2.nextFd = h.nextFd + 1 := by
            simp [vfio_pci_update_msi_entry, host_eventfd, host_add_msix_route, Host.record, h1, h2, h3, h4, hcast]
          simp only [hE, hI, hG, hN]
          refine ⟨⟨?_, ?_, ?_, ?_⟩, ?_⟩
          · rcases hm : msi_is_masked e.host_state with _ | _
            · exact absurd (hiB hm).1 (by omega)
            · exact iff_of_true rfl (not_mem_irqfds_fresh h hf _ _ (Or.inr (le_refl _)))
          · intro hm
            exact absurd (hiB hm).1 (by omega)
          · exact hiC
          · omega
          · intro p hp
            have := hf p hp
            omega
        · -- fresh gsi
          by_cases h5 : msi_is_masked e.guest_state = msi_is_masked e.host_state
          · -- masked state already reconciled
            have hE : (vfio_pci_update_msi_entry h e).2.1 = {e with eventfd := (h.nextFd : Int), gsi := (h.nextGsi : Int)} := by
              simp [vfio_pci_update_msi_entry, host_eventfd, host_add_msix_route, Host.record, h1, h2, h3, h4, h5, hcast]
            have hI : (vfio_pci_update_msi_entry h e).2.2.irqfds = h.irqfds := by
              simp [vfio_pci_update_msi_entry, host_eventfd, host_add_msix_route, Host.record, h1, h2, h3, h4, h5, hcast]
            have hG : (vfio_pci_update_msi_entry h e).2.2.nextGsi = h.nextGsi + 1 := by
              simp [vfio_pci_update_msi_entry, host_eventfd, host_add_msix_route, Host.record, h1, h2, h3, h4, h5, hcast]
            have hN : (vfio_pci_update_msi_entry h e).2.2.nextFd = h.nextFd + 1 := by
              simp [vfio_pci_update_msi_entry, host_eventfd, host_add_msix_route, Host.record, h1, h2, h3, h4, h5, hcast]
            simp only [hE, hI, hG, hN]
            refine ⟨⟨?_, ?_, ?_, ?_⟩, ?_⟩
            · rcases hm : msi_is_masked e.host_state with _ | _
              · exact absurd (hiB hm).1 (by omega)
              · exact iff_of_true rfl (not_mem_irqfds_fresh h hf _ _ (Or.inl (le_refl _)))
            · intro _
              constructor <;> omega
            · omega
            · omega
            · intro p hp
              have := hf p hp
              omega
          · by_cases h6 : msi_is_masked e.host_state = true
            · have hgm : msi_is_masked e.guest_state = false := by
                rw [h6] at h5
                simpa using h5
              by_cases h7 : h.failIrqfd = true
              · -- irqfd install fails
                have hE : (vfio_pci_update_msi_entry h e).2.1 = {e with eventfd := (h.nextFd : Int), gsi := (h.nextGsi : Int)} := by
                  simp [vfio_pci_update_msi_entry, host_eventfd, host_add_msix_route, host_add_irqfd, Host.record, h1, h2, h3, h4, hgm, h6, h7, hcast]
                have hI : (vfio_pci_update_msi_entry h e).2.2.irqfds = h.irqfds := by
                  simp [vfio_pci_update_msi_entry, host_eventfd, host_add_msix_route, host_add_irqfd, Host.record, h1, h2, h3, h4, hgm, h6, h7, hcast]
                have hG : (vfio_pci_update_msi_entry h e).2.2.nextGsi = h.nextGsi + 1 := by
                  simp [vfio_pci_update_msi_entry, host_eventfd, host_add_msix_route, host_add_irqfd, Host.record, h1, h2, h3, h4, hgm, h6, h7, hcast]
                have hN : (vfio_pci_update_msi_entry h e).2.2.nextFd = h.nextFd + 1 := by
                  simp [vfio_pci_update_msi_entry, host_eventfd, host_add_msix_route, host_add_irqfd, Host.record, h1, h2, h3, h4, hgm, h6, h7, hcast]
                simp only [hE, hI, hG, hN]
                refine ⟨⟨?_, ?_, ?_, ?_⟩, ?_⟩
                · exact iff_of_true h6 (not_mem_irqfds_fresh h hf _ _ (Or.inl (le_refl _)))
                · intro hm
                  rw [hm] at h6
                  exact absurd h6 (by simp)
                · omega
                · omega
                · intro p hp
                  have := hf p hp
                  omega
              · -- irqfd installed, vector unmasked on the host
                have hE : (vfio_pci_update_msi_entry h e).2.1 = {e with eventfd := (h.nextFd : Int), gsi := (h.nextGsi : Int), host_state := msi_set_masked e.host_state (msi_is_masked e.guest_state)} := by
                  simp [vfio_pci_update_msi_entry, host_eventfd, host_add_msix_route, host_add_irqfd, Host.record, h1, h2, h3, h4, hgm, h6, h7, hcast]
                have hI : (vfio_pci_update_msi_entry h e).2.2.irqfds = ((h.nextGsi : Int), (h.nextFd : Int)) :: h.irqfds := by
                  simp [vfio_pci_update_msi_entry, host_eventfd, host_add_msix_route, host_add_irqfd, Host.record, h1, h2, h3, h4, hgm, h6, h7, hcast]
                have hG : (vfio_pci_update_msi_entry h e).2.2.nextGsi = h.nextGsi + 1 := by
                  simp [vfio_pci_update_msi_entry, host_eventfd, host_add_msix_route, host_add_irqfd, Host.record, h1, h2, h3, h4, hgm, h6, h7, hcast]
                have hN : (vfio_pci_update_msi_entry h e).2.2.nextFd = h.nextFd + 1 := by
                  simp [vfio_pci_update_msi_entry, host_eventfd, host_add_msix_route, host_add_irqfd, Host.record, h1, h2, h3, h4, hgm, h6, h7, hcast]
                simp only [hE, hI, hG, hN]
                refine ⟨⟨?_, ?_, ?_, ?_⟩, ?_⟩
                · refine iff_of_false ?_ (by simp)
                  simp [msi_is_masked_set_masked, hgm]
                · intro _
                  constructor <;> omega
                · omega
                · omega
                · intro p hp
                  rcases List.mem_cons.mp hp with hp | hp
                  · have e1 : p.1 = (h.nextGsi : Int) := by rw [hp]
                    have e2 : p.2 = (h.nextFd : Int) := by rw [hp]
                    rw [e1, e2]
                    omega
                  · have := hf p hp
                    omega
            · -- host unmasked but eventfd was negative: impossible
              have h6f : msi_is_masked e.host_state = false := by simpa using h6
              exact absurd (hiB h6f).2 (by omega)
      · -- existing gsi, fresh eventfd
        by_cases h5 : msi_is_masked e.guest_state = msi_is_masked e.host_state
        · have hE : (vfio_pci_update_msi_entry h e).2.1 = {e with eventfd := (h.nextFd : Int)} := by
            simp [vfio_pci_update_msi_entry, host_eventfd, host_upd_msix_route, Host.record, h1, h2, h3, h5, hcast]
          have hI : (vfio_pci_update_msi_entry h e).2.2.irqfds = h.irqfds := by
            simp [vfio_pci_update_msi_entry, host_eventfd, host_upd_msix_route, Host.record, h1, h2, h3, h5, hcast]
          have hG : (vfio_pci_update_msi_entry h e).2.2.nextGsi = h.nextGsi := by
            simp [vfio_pci_update_msi_entry, host_eventfd, host_upd_msix_route, Host.record, h1, h2, h3, h5, hcast]
          have hN : (vfio_pci_update_msi_entry h e).2.2.nextFd = h.nextFd + 1 := by
            simp [vfio_pci_update_msi_entry, host_eventfd, host_upd_msix_route, Host.record, h1, h2, h3, h5, hcast]
          simp only [hE, hI, hG, hN]
          refine ⟨⟨?_, ?_, ?_, ?_⟩, ?_⟩
          · rcases hm : msi_is_masked e.host_state with _ | _
            · exact absurd (hiB hm).2 (by omega)
            · exact iff_of_true rfl (not_mem_irqfds_fresh h hf _ _ (Or.inr (le_refl _)))
          · intro hm
            exact ⟨(hiB hm).1, by omega⟩
          · exact hiC
          · omega
          · intro p hp
            have := hf p hp
            omega
        · by_cases h6 : msi_is_masked e.host_state = true
          · have hgm : msi_is_masked e.guest_state = false := by
              rw [h6] at h5
              simpa using h5
            by_cases h7 : h.failIrqfd = true
            · have hE : (vfio_pci_update_msi_entry h e).2.1 = {e with eventfd := (h.nextFd : Int)} := by
                simp [vfio_pci_update_msi_entry, host_eventfd, host_upd_msix_route, host_add_irqfd, Host.record, h1, h2, h3, hgm, h6, h7, hcast]
              have hI : (vfio_pci_update_msi_entry h e).2.2.irqfds = h.irqfds := by
                simp [vfio_pci_update_msi_entry, host_eventfd, host_upd_msix_route, host_add_irqfd, Host.record, h1, h2, h3, hgm, h6, h7, hcast]
              have hG : (vfio_pci_update_msi_entry h e).2.2.nextGsi = h.nextGsi := by
                simp [vfio_pci_update_msi_entry, host_eventfd, host_upd_msix_route, host_add_irqfd, Host.record, h1, h2, h3, hgm, h6, h7, hcast]
              have hN : (vfio_pci_update_msi_entry h e).2.2.nextFd = h.nextFd + 1 := by
                simp [vfio_pci_update_msi_entry, host_eventfd, host_upd_msix_route, host_add_irqfd, Host.record, h1, h2, h3, hgm, h6, h7, hcast]
              simp only [hE, hI, hG, hN]
              refine ⟨⟨?_, ?_, ?_, ?_⟩, ?_⟩
              · exact iff_of_true h6 (not_mem_irqfds_fresh h hf _ _ (Or.inr (le_refl _)))
              · intro hm
                rw [hm] at h6
                exact absurd h6 (by simp)
              · exact hiC
              · omega
              · intro p hp
                have := hf p hp
                omega
            · have hE : (vfio_pci_update_msi_entry h e).2.1 = {e with eventfd := (h.nextFd : Int), host_state := msi_set_masked e.host_state (msi_is_masked e.guest_state)} := by
                simp [vfio_pci_update_msi_entry, host_eventfd, host_upd_msix_route, host_add_irqfd, Host.record, h1, h2, h3, hgm, h6, h7, hcast]
              have hI : (vfio_pci_update_msi_entry h e).2.2.irqfds = (e.gsi, (h.nextFd : Int)) :: h.irqfds := by
                simp [vfio_pci_update_msi_entry, host_eventfd, host_upd_msix_route, host_add_irqfd, Host.record, h1, h2, h3, hgm, h6, h7, hcast]
              have hG : (vfio_pci_update_msi_entry h e).2.2.nextGsi = h.nextGsi := by
                simp [vfio_pci_update_msi_entry, host_eventfd, host_upd_msix_route, host_add_irqfd, Host.record, h1, h2, h3, hgm, h6, h7, hcast]
              have hN : (vfio_pci_update_msi_entry h e).2.2.nextFd = h.nextFd + 1 := by
                simp [vfio_pci_update_msi_entry, host_eventfd, host_upd_msix_route, host_add_irqfd, Host.record, h1, h2, h3, hgm, h6, h7, hcast]
              simp only [hE, hI, hG, hN]
              refine ⟨⟨?_, ?_, ?_, ?_⟩, ?_⟩
              · refine iff_of_false ?_ (by simp)
                simp [msi_is_masked_set_masked, hgm]
              · intro _
                constructor <;> omega
              · exact hiC
              · omega
              · intro p hp
                rcases List.mem_cons.mp hp with hp | hp
                · have e1 : p.1 = e.gsi := by rw [hp]
                  have e2 : p.2 = (h.nextFd : Int) := by rw [hp]
                  rw [e1, e2]
                  refine ⟨by omega, hiC, by omega, by omega⟩
                · have := hf p hp
                  omega
          · have h6f : msi_is_masked e.host_state = false := by simpa using h6
            exact absurd (hiB h6f).2 (by omega)
  · -- existing eventfd
    by_cases h3 : e.gsi < 0
    · by_cases h4 : h.failRoute = true
      · have hE : (vfio_pci_update_msi_entry h e).2.1 = e := by
          simp [vfio_pci_update_msi_entry, host_add_msix_route, Host.record, h1, h3, h4, hcast]
        have hI : (vfio_pci_update_msi_entry h e).2.2.irqfds = h.irqfds := by
          simp [vfio_pci_update_msi_entry, host_add_msix_route, Host.record, h1, h3, h4, hcast]
        have hG : (vfio_pci_update_msi_entry h e).2.2.nextGsi = h.nextGsi := by
          simp [vfio_pci_update_msi_entry, host_add_msix_route, Host.record, h1, h3, h4, hcast]
        have hN : (vfio_pci_update_msi_entry h e).2.2.nextFd = h.nextFd := by
          simp [vfio_pci_update_msi_entry, host_add_msix_route, Host.record, h1, h3, h4, hcast]
        simp only [hE, hI, hG, hN]
        exact ⟨⟨hiA, hiB, hiC, hiD⟩, hf⟩
      · by_cases h5 : msi_is_masked e.guest_state = msi_is_masked e.host_state
        · have hE : (vfio_pci_update_msi_entry h e).2.1 = {e with gsi := (h.nextGsi : Int)} := by
            simp [vfio_pci_update_msi_entry, host_add_msix_route, Host.record, h1, h3, h4, h5, hcast]
          have hI : (vfio_pci_update_msi_entry h e).2.2.irqfds = h.irqfds := by
            simp [vfio_pci_update_msi_entry, host_add_msix_route, Host.record, h1, h3, h4, h5, hcast]
          have hG : (vfio_pci_update_msi_entry h e).2.2.nextGsi = h.nextGsi + 1 := by
            simp [vfio_pci_update_msi_entry, host_add_msix_route, Host.record, h1, h3, h4, h5, hcast]
          have hN : (vfio_pci_update_msi_entry h e).2.2.nextFd = h.nextFd := by
            simp [vfio_pci_update_msi_entry, host_add_msix_route, Host.record, h1, h3, h4, h5, hcast]
          simp only [hE, hI, hG, hN]
          refine ⟨⟨?_, ?_, ?_, ?_⟩, ?_⟩
          · rcases hm : msi_is_masked e.host_state with _ | _
            · exact absurd (hiB hm).1 (by omega)
            · exact iff_of_true rfl (not_mem_irqfds_fresh h hf _ _ (Or.inl (le_refl _)))
          · intro hm
            exact ⟨by omega, (hiB hm).2⟩
          · omega
          · exact hiD
          · intro p hp
            have := hf p hp
            omega
        · by_cases h6 : msi_is_masked e.host_state = true
          · have hgm : msi_is_masked e.guest_state = false := by
              rw [h6] at h5
              simpa using h5
            by_cases h7 : h.failIrqfd = true
            · have hE : (vfio_pci_update_msi_entry h e).2.1 = {e with gsi := (h.nextGsi : Int)} := by
                simp [vfio_pci_update_msi_entry, host_add_msix_route, host_add_irqfd, Host.record, h1, h3, h4, hgm, h6, h7, hcast]
              have hI : (vfio_pci_update_msi_entry h e).2.2.irqfds = h.irqfds := by
                simp [vfio_pci_update_msi_entry, host_add_msix_route, host_add_irqfd, Host.record, h1, h3, h4, hgm, h6, h7, hcast]
              have hG : (vfio_pci_update_msi_entry h e).2.2.nextGsi = h.nextGsi + 1 := by
                simp [vfio_pci_update_msi_entry, host_add_msix_route, host_add_irqfd, Host.record, h1, h3, h4, hgm, h6, h7, hcast]
              have hN : (vfio_pci_update_msi_entry h e).2.2.nextFd = h.nextFd := by
                simp [vfio_pci_update_msi_entry, host_add_msix_route, host_add_irqfd, Host.record, h1, h3, h4, hgm, h6, h7, hcast]
              simp only [hE, hI, hG, hN]
              refine ⟨⟨?_, ?_, ?_, ?_⟩, ?_⟩
              · exact iff_of_true h6 (not_mem_irqfds_fresh h hf _ _ (Or.inl (le_refl _)))
              · intro hm
                rw [hm] at h6
                exact absurd h6 (by simp)
              · omega
              · exact hiD
              · intro p hp
                have := hf p hp
                omega
            · have hE : (vfio_pci_update_msi_entry h e).2.1 = {e with gsi := (h.nextGsi : Int), host_state := msi_set_masked e.host_state (msi_is_masked e.guest_state)} := by
                simp [vfio_pci_update_msi_entry, host_add_msix_route, host_add_irqfd, Host.record, h1, h3, h4, hgm, h6, h7, hcast]
              have hI : (vfio_pci_update_msi_entry h e).2.2.irqfds = ((h.nextGsi : Int), e.eventfd) :: h.irqfds := by
                simp [vfio_pci_update_msi_entry, host_add_msix_route, host_add_irqfd, Host.record, h1, h3, h4, hgm, h6, h7, hcast]
              have hG : (vfio_pci_update_msi_entry h e).2.2.nextGsi = h.nextGsi + 1 := by
                simp [vfio_pci_update_msi_entry, host_add_msix_route, host_add_irqfd, Host.record, h1, h3, h4, hgm, h6, h7, hcast]
              have hN : (vfio_pci_update_msi_entry h e).2.2.nextFd = h.nextFd := by
                simp [vfio_pci_update_msi_entry, host_add_msix_route, host_add_irqfd, Host.record, h1, h3, h4, hgm, h6, h7, hcast]
              simp only [hE, hI, hG, hN]
              refine ⟨⟨?_, ?_, ?_, ?_⟩, ?_⟩
              · refine iff_of_false ?_ (by simp)
                simp [msi_is_masked_set_masked, hgm]
              · intro _
                constructor <;> omega
              · omega
              · exact hiD
              · intro p hp
                rcases List.mem_cons.mp hp with hp | hp
                · have e1 : p.1 = (h.nextGsi : Int) := by rw [hp]
                  have e2 : p.2 = e.eventfd := by rw [hp]
                  rw [e1, e2]
                  refine ⟨by omega, by omega, by omega, hiD⟩
                · have := hf p hp
                  omega
          · have h6f : msi_is_masked e.host_state = false := by simpa using h6
            exact absurd (hiB h6f).1 (by omega)
    · -- existing gsi and eventfd: route refresh only, then reconcile
      by_cases h5 : msi_is_masked e.guest_state = msi_is_masked e.host_state
      · have hE : (vfio_pci_update_msi_entry h e).2.1 = e := by
          simp [vfio_pci_update_msi_entry, host_upd_msix_route, Host.record, h1, h3, h5]
        have hI : (vfio_pci_update_msi_entry h e).2.2.irqfds = h.irqfds := by
          simp [vfio_pci_update_msi_entry, host_upd_msix_route, Host.record, h1, h3, h5]
        have hG : (vfio_pci_update_msi_entry h e).2.2.nextGsi = h.nextGsi := by
          simp [vfio_pci_update_msi_entry, host_upd_msix_route, Host.record, h1, h3, h5]
        have hN : (vfio_pci_update_msi_entry h e).2.2.nextFd = h.nextFd := by
          simp [vfio_pci_update_msi_entry, host_upd_msix_route, Host.record, h1, h3, h5]
        simp only [hE, hI, hG, hN]
        exact ⟨⟨hiA, hiB, hiC, hiD⟩, hf⟩
      · by_cases h6 : msi_is_masked e.host_state = true
        · have hgm : msi_is_masked e.guest_state = false := by
            rw [h6] at h5
            simpa using h5
          by_cases h7 : h.failIrqfd = true
          · have hE : (vfio_pci_update_msi_entry h e).2.1 = e := by
              simp [vfio_pci_update_msi_entry, host_upd_msix_route, host_add_irqfd, Host.record, h1, h3, hgm, h6, h7]
            have hI : (vfio_pci_update_msi_entry h e).2.2.irqfds = h.irqfds := by
              simp [vfio_pci_update_msi_entry, host_upd_msix_route, host_add_irqfd, Host.record, h1, h3, hgm, h6, h7]
            have hG : (vfio_pci_update_msi_entry h e).2.2.nextGsi = h.nextGsi := by
              simp [vfio_pci_update_msi_entry, host_upd_msix_route, host_add_irqfd, Host.record, h1, h3, hgm, h6, h7]
            have hN : (vfio_pci_update_msi_entry h e).2.2.nextFd = h.nextFd := by
              simp [vfio_pci_update_msi_entry, host_upd_msix_route, host_add_irqfd, Host.record, h1, h3, hgm, h6, h7]
            simp only [hE, hI, hG, hN]
            exact ⟨⟨hiA, hiB, hiC, hiD⟩, hf⟩
          · have hE : (vfio_pci_update_msi_entry h e).2.1 = {e with host_state := msi_set_masked e.host_state (msi_is_masked e.guest_state)} := by
              simp [vfio_pci_update_msi_entry, host_upd_msix_route, host_add_irqfd, Host.record, h1, h3, hgm, h6, h7]
            have hI : (vfio_pci_update_msi_entry h e).2.2.irqfds = (e.gsi, e.eventfd) :: h.irqfds := by
              simp [vfio_pci_update_msi_entry, host_upd_msix_route, host_add_irqfd, Host.record, h1, h3, hgm, h6, h7]
            have hG : (vfio_pci_update_msi_entry h e).2.2.nextGsi = h.nextGsi := by
              simp [vfio_pci_update_msi_entry, host_upd_msix_route, host_add_irqfd, Host.record, h1, h3, hgm, h6, h7]
            have hN : (vfio_pci_update_msi_entry h e).2.2.nextFd = h.nextFd := by
              simp [vfio_pci_update_msi_entry, host_upd_msix_route, host_add_irqfd, Host.record, h1, h3, hgm, h6, h7]
            simp only [hE, hI, hG, hN]
            refine ⟨⟨?_, ?_, ?_, ?_⟩, ?_⟩
            · refine iff_of_false ?_ (by simp)
              simp [msi_is_masked_set_masked, hgm]
            · intro _
              constructor <;> omega
            · exact hiC
            · exact hiD
            · intro p hp
              rcases List.mem_cons.mp hp with hp | hp
              · have e1 : p.1 = e.gsi := by rw [hp]
                have e2 : p.2 = e.eventfd := by rw [hp]
                rw [e1, e2]
                refine ⟨by omega, hiC, by omega, hiD⟩
              · exact hf p hp
        · -- host unmasked, guest masked: remove the route
          have h6f : msi_is_masked e.host_state = false := by simpa using h6
          have hgm : msi_is_masked e.guest_state = true := by
            rw [h6f] at h5
            simpa using h5
          have hE : (vfio_pci_update_msi_entry h e).2.1 = {e with host_state := msi_set_masked e.host_state (msi_is_masked e.guest_state)} := by
            simp [vfio_pci_update_msi_entry, host_upd_msix_route, host_del_irqfd, Host.record, h1, h3, hgm, h6f]
          have hI : (vfio_pci_update_msi_entry h e).2.2.irqfds = h.irqfds.filter (fun p => decide (p ≠ (e.gsi, e.eventfd))) := by
            simp [vfio_pci_update_msi_entry, host_upd_msix_route, host_del_irqfd, Host.record, h1, h3, hgm, h6f]
          have hG : (vfio_pci_update_msi_entry h e).2.2.nextGsi = h.nextGsi := by
            simp [vfio_pci_update_msi_entry, host_upd_msix_route, host_del_irqfd, Host.record, h1, h3, hgm, h6f]
          have hN : (vfio_pci_update_msi_entry h e).2.2.nextFd = h.nextFd := by
            simp [vfio_pci_update_msi_entry, host_upd_msix_route, host_del_irqfd, Host.record, h1, h3, hgm, h6f]
          simp only [hE, hI, hG, hN]
          refine ⟨⟨?_, ?_, ?_, ?_⟩, ?_⟩
          · refine iff_of_true (by simp [msi_is_masked_set_masked, hgm]) ?_
            intro hm
            have := List.of_mem_filter hm
            simp at this
          · intro hm
            rw [msi_is_masked_set_masked, hgm] at hm
            exact absurd hm (by simp)
          · exact hiC
          · exact hiD
          · intro p hp
            exact hf p (List.mem_of_mem_filter hp)

end VfioPci

namespace VfioPci

/-- Claim C3 — per-vector mask/route invariant.  The initialization loop of
`vfio_pci_init_msis` puts every vector in the initial state (host MASKED,
gsi = -1, eventfd = -1) which satisfies the invariant against any host with
only live routes installed, and `vfio_pci_update_msi_entry` — the only
function that installs or removes per-vector irqfd routes, and the one all
vector update, mask write, enable and disable paths go through — preserves
it on every path: afterwards the vector's host MASKED bit is set iff no
irqfd route is installed for its (gsi, eventfd). -/
theorem msi_vector_mask_route_invariant (m : MsiCommon) (h : Host) (e : MsiEntry)
    (hf : HostFresh h) (hi : EntryInv h e) :
    (∀ e' ∈ (vfio_pci_init_msis m).entries,
        msi_is_masked e'.host_state = true ∧ e'.gsi = -1 ∧ e'.eventfd = -1 ∧ EntryInv h e')
    ∧ (EntryInv (vfio_pci_update_msi_entry h e).2.2 (vfio_pci_update_msi_entry h e).2.1
       ∧ HostFresh (vfio_pci_update_msi_entry h e).2.2) := by
  constructor
  · intro e' he'
    simp only [vfio_pci_init_msis, List.mem_map] at he'
    obtain ⟨x, _, rfl⟩ := he'
    have hmx : msi_is_masked (initMsiEntry x).host_state = true := by
      simp [initMsiEntry, msi_is_masked_set_masked]
    refine ⟨hmx, rfl, rfl, ?_⟩
    unfold EntryInv
    refine ⟨?_, ?_, ?_, ?_⟩
    · exact iff_of_true hmx (not_mem_irqfds_neg h hf _ _ (Or.inl (by simp [initMsiEntry])))
    · intro hm
      rw [hmx] at hm
      exact absurd hm (by simp)
    · simp only [initMsiEntry]
      omega
    · simp only [initMsiEntry]
      omega
  · exact update_msi_entry_inv h e hf hi

/-- A host with no routes installed. -/
def c3host : Host := ⟨100, 10, [], [], false, false, false, false, []⟩

/-- A freshly initialized vector: host MASKED, no ids. -/
def c3entry : MsiEntry := ⟨List.replicate 16 0, -1, -1, 0, 2⟩

/-- An MSI capability with one vector. -/
def c3msi : MsiCommon := ⟨0x40, 1, 0, 0, 1, [c3entry], [-1]⟩

theorem msi_vector_mask_route_invariant_witness :
    (∀ e' ∈ (vfio_pci_init_msis c3msi).entries,
        msi_is_masked e'.host_state = true ∧ e'.gsi = -1 ∧ e'.eventfd = -1
        ∧ EntryInv c3host e')
    ∧ (EntryInv (vfio_pci_update_msi_entry c3host c3entry).2.2
        (vfio_pci_update_msi_entry c3host c3entry).2.1
       ∧ HostFresh (vfio_pci_update_msi_entry c3host c3entry).2.2) :=
  msi_vector_mask_route_invariant c3msi c3host c3entry (by decide) (by decide)

end VfioPci
